import Mathlib

/-!
Shallow embedding of the Academic Year Transition Engine of the
`your-compass` school-records application, together with proofs that settle
the specification claims against the code.

Sources embedded:
* `src/lib/schoolLevels.ts`   — level hierarchy and year-name helpers;
* `src/hooks/useAcademicYear.ts` — `createYear` and `closeYear`;
* `src/lib/database.ts`       — entity records (Dexie tables are modelled as
  lists carried in an explicit `DB` state).

Modelling conventions:
* Entity ids are strings produced by `generateId()` (timestamp + randomness)
  in the source; the only property the code relies on is global freshness, so
  ids are modelled as naturals drawn from a counter `DB.nextId` carried in the
  state, and `generateId` returns the counter and bumps it.  Well-formed
  states (`DB.WF`) are those whose stored ids lie below the counter.
* JavaScript `Date` values are modelled at day granularity (`JSDate`), with
  the exact field-setter semantics of `setFullYear` / `setMonth` / `setDate`,
  including day-of-month overflow normalisation (e.g. `setMonth(8)` on
  July 31 yields October 1 because September has 30 days).
* Dexie's `table.get`/`.where(...).equals(...).toArray()`/`.add`/`.update`
  become `List.find?` / `List.filter` / append / map-update on the state.
* The `Record<string, unknown>` schedule payload is only ever copied, never
  inspected, so it is modelled as an uninterpreted string.
-/

namespace Compass

/-! ### Level hierarchy — `src/lib/schoolLevels.ts` -/

inductive SchoolType where
  | primaire
  | college
  | lycee
deriving DecidableEq, Repr

structure SchoolLevel where
  id : String
  name : String
  shortName : String
  type : SchoolType
  order : Nat
  nextLevelId : Option String
deriving DecidableEq, Repr

def SCHOOL_LEVELS : List SchoolLevel := [
  -- Primaire
  ⟨"cp", "Cours Préparatoire", "CP", .primaire, 1, some "ce1"⟩,
  ⟨"ce1", "Cours Élémentaire 1", "CE1", .primaire, 2, some "ce2"⟩,
  ⟨"ce2", "Cours Élémentaire 2", "CE2", .primaire, 3, some "cm1"⟩,
  ⟨"cm1", "Cours Moyen 1", "CM1", .primaire, 4, some "cm2"⟩,
  ⟨"cm2", "Cours Moyen 2", "CM2", .primaire, 5, some "6eme"⟩,
  -- Collège
  ⟨"6eme", "Sixième", "6ème", .college, 6, some "5eme"⟩,
  ⟨"5eme", "Cinquième", "5ème", .college, 7, some "4eme"⟩,
  ⟨"4eme", "Quatrième", "4ème", .college, 8, some "3eme"⟩,
  ⟨"3eme", "Troisième", "3ème", .college, 9, some "2nde"⟩,
  -- Lycée général
  ⟨"2nde", "Seconde", "2nde", .lycee, 10, some "1ere"⟩,
  ⟨"1ere", "Première", "1ère", .lycee, 11, some "tle"⟩,
  ⟨"tle", "Terminale", "Tle", .lycee, 12, none⟩]

def getLevelById (id : String) : Option SchoolLevel :=
  SCHOOL_LEVELS.find? (fun level => level.id == id)

def getNextLevel (currentLevelId : String) : Option SchoolLevel :=
  match getLevelById currentLevelId with
  | none => none
  | some current =>
    match current.nextLevelId with
    | none => none
    | some nid => getLevelById nid

def getLevelOrder (levelId : String) : Nat :=
  ((getLevelById levelId).map SchoolLevel.order).getD 0

/-- `generateAcademicYearName` — produces e.g. `"2024-2025"`. -/
def generateAcademicYearName (startYear : Nat) : String :=
  toString startYear ++ "-" ++ toString (startYear + 1)

/-- The regex `^(\d{4})-\d{4}$` of `parseAcademicYearName`: returns the
leading four-digit year when the name matches, `none` otherwise. -/
def yearNameMatch (name : String) : Option Nat :=
  match name.data with
  | [a, b, c, d, dash, e, f, g, h] =>
    if a.isDigit && b.isDigit && c.isDigit && d.isDigit && dash == '-' &&
        e.isDigit && f.isDigit && g.isDigit && h.isDigit then
      some ((a.toNat - '0'.toNat) * 1000 + (b.toNat - '0'.toNat) * 100 +
        (c.toNat - '0'.toNat) * 10 + (d.toNat - '0'.toNat))
    else
      none
  | _ => none

/-- `parseAcademicYearName` — on a non-matching name the source falls back to
`new Date().getFullYear()`, passed here explicitly as `currentYear`. -/
def parseAcademicYearName (currentYear : Nat) (name : String) : Nat :=
  (yearNameMatch name).getD currentYear

def getNextAcademicYearName (currentYear : Nat) (currentName : String) : String :=
  generateAcademicYearName (parseAcademicYearName currentYear currentName + 1)

/-! ### JavaScript dates, at day granularity -/

structure JSDate where
  year : Int
  month : Nat   -- 0-based, January = 0, as in JavaScript
  day : Nat     -- 1-based day of month
deriving DecidableEq, Repr

def isLeapYear (y : Int) : Bool :=
  (y % 4 == 0 && y % 100 != 0) || (y % 400 == 0)

def daysInMonth (y : Int) (m : Nat) : Nat :=
  if m == 1 then (if isLeapYear y then 29 else 28)
  else if m == 3 || m == 5 || m == 8 || m == 10 then 30
  else 31

/-- JavaScript field-setter normalisation: a day past the end of the month
rolls into the following month (the setters used by `closeYear` keep the day
within 1..31, so at most one month of carry occurs). -/
def normDay (d : JSDate) : JSDate :=
  if d.day ≤ daysInMonth d.year d.month then d
  else if d.month == 11 then ⟨d.year + 1, 0, d.day - daysInMonth d.year d.month⟩
  else ⟨d.year, d.month + 1, d.day - daysInMonth d.year d.month⟩

def JSDate.setMonth (d : JSDate) (m : Nat) : JSDate :=
  normDay ⟨d.year + (m / 12 : Nat), m % 12, d.day⟩

def JSDate.setDate (d : JSDate) (day : Nat) : JSDate :=
  normDay ⟨d.year, d.month, day⟩

def JSDate.setFullYear (d : JSDate) (y : Int) : JSDate :=
  normDay ⟨y, d.month, d.day⟩

/-- Lines 132–134 of `useAcademicYear.ts`:
`newStartDate = new Date(endDate); setMonth(8); setDate(1)`. -/
def computeNewStartDate (endDate : JSDate) : JSDate :=
  (endDate.setMonth 8).setDate 1

/-- Lines 136–139 of `useAcademicYear.ts`:
`newEndDate = new Date(newStartDate); setFullYear(+1); setMonth(6); setDate(31)`. -/
def computeNewEndDate (newStartDate : JSDate) : JSDate :=
  ((newStartDate.setFullYear (newStartDate.year + 1)).setMonth 6).setDate 31

/-! ### Entity records — `src/lib/database.ts` -/

/-- Entity ids: generated by `generateId()`; modelled as counter-drawn
naturals (see header). -/
abbrev Id := Nat

/-- Uninterpreted `Record<string, unknown>` payload (only ever copied). -/
abbrev Schedule := String

inductive AcademicYearStatus where
  | active
  | closed
  | upcoming
deriving DecidableEq, Repr

inductive EnrollmentDecision where
  | passage
  | redoublement
  | non_reconduit
  | pending
deriving DecidableEq, Repr

inductive PostCloseAction where
  | reinscription
  | abandon
  | transfert
  | archive
  | pending
deriving DecidableEq, Repr

inductive StudentStatus where
  | active
  | inactive
deriving DecidableEq, Repr

structure AcademicYear where
  id : Id
  establishmentId : Id
  name : String
  startDate : JSDate
  endDate : JSDate
  status : AcademicYearStatus
  closedAt : Option JSDate
  closedBy : Option Id
  createdAt : JSDate
deriving DecidableEq, Repr

structure ClassRec where
  id : Id
  establishmentId : Id
  name : String
  levelId : String
  level : String
  teacherId : Id
  studentIds : List Id
  schedule : Schedule
  academicYearId : Id
deriving DecidableEq, Repr

structure ClassSubject where
  id : Id
  classId : Id
  subjectId : Id
  academicYearId : Id
  coefficient : Int
  hoursPerWeek : Int
  teacherId : Option Id
deriving DecidableEq, Repr

structure TeacherAssignment where
  id : Id
  teacherId : Id
  classId : Id
  academicYearId : Id
  isPrincipal : Bool
  subjectIds : List Id
deriving DecidableEq, Repr

structure StudentEnrollment where
  id : Id
  studentId : Id
  classId : Id
  academicYearId : Id
  enrollmentDate : JSDate
  decision : EnrollmentDecision
  decisionDate : Option JSDate
  decisionBy : Option Id
  postCloseAction : Option PostCloseAction
  postCloseActionDate : Option JSDate
  postCloseNote : Option String
deriving DecidableEq, Repr

structure Student where
  id : Id
  establishmentId : Id
  userId : Id
  classId : Id
  parentIds : List Id
  birthDate : JSDate
  enrollmentDate : JSDate
  status : StudentStatus
deriving DecidableEq, Repr

/-- The Dexie database state: the tables `closeYear`'s transaction spans,
plus the id-generation counter. -/
structure DB where
  academicYears : List AcademicYear
  classes : List ClassRec
  classSubjects : List ClassSubject
  teacherAssignments : List TeacherAssignment
  studentEnrollments : List StudentEnrollment
  students : List Student
  nextId : Id
deriving DecidableEq, Repr

/-- `generateId()` — returns a fresh id and the bumped state. -/
def generateId (s : DB) : Id × DB :=
  (s.nextId, { s with nextId := s.nextId + 1 })

/-- Well-formed state: every stored id and year reference lies below the
id-generation counter (so freshly generated ids never collide), stored
primary keys are pairwise distinct. -/
def DB.WF (s : DB) : Prop :=
  (∀ y ∈ s.academicYears, y.id < s.nextId) ∧
  (∀ c ∈ s.classes, c.id < s.nextId ∧ c.academicYearId < s.nextId) ∧
  (∀ cs ∈ s.classSubjects, cs.id < s.nextId ∧ cs.classId < s.nextId) ∧
  (∀ ta ∈ s.teacherAssignments, ta.id < s.nextId ∧ ta.classId < s.nextId) ∧
  (∀ e ∈ s.studentEnrollments, e.id < s.nextId ∧ e.academicYearId < s.nextId) ∧
  (s.academicYears.map AcademicYear.id).Nodup ∧
  (s.classes.map ClassRec.id).Nodup

instance (s : DB) : Decidable s.WF := by
  unfold DB.WF
  infer_instance

/-! ### `createYear` — `useAcademicYear.ts` lines 100–115 -/

/-- The `Partial<AcademicYear>` argument of `createYear` (only the fields the
function reads). -/
structure YearDraft where
  name : Option String
  startDate : Option JSDate
  endDate : Option JSDate
  status : Option AcademicYearStatus
deriving DecidableEq, Repr

/-- `createYear(data)`: builds a new `AcademicYear` row from the draft
(JavaScript `||` defaults) and adds it.  `establishmentId` comes from the
logged-in user, `now` models `new Date()`.  No conflict check is performed. -/
def createYear (s : DB) (establishmentId : Id) (data : YearDraft) (now : JSDate) :
    DB × AcademicYear :=
  let yid := (generateId s).1
  let s := (generateId s).2
  let newYear : AcademicYear :=
    ⟨yid, establishmentId, data.name.getD "", data.startDate.getD now,
      data.endDate.getD now, data.status.getD .upcoming, none, none, now⟩
  ({ s with academicYears := s.academicYears ++ [newYear] }, newYear)

/-! ### `closeYear` — `useAcademicYear.ts` lines 118–307 -/

inductive CloseErr where
  | notFound        -- "Année non trouvée"
  | alreadyClosed   -- "Année déjà clôturée"
deriving DecidableEq, Repr

structure CloseYearStats where
  studentsPromoted : Nat
  studentsRepeating : Nat
  studentsNotRenewed : Nat
  classesCreated : Nat
deriving DecidableEq, Repr

/-- Transaction step 1–2 (lines 159–167): mark the old year closed
(`closedAt`/`closedBy`) and add the new year row. -/
def markClosedAddYear (s : DB) (yearId : Id) (newYear : AcademicYear)
    (userId : Option Id) (now : JSDate) : DB :=
  let s : DB := { s with academicYears := s.academicYears.map (fun y =>
    if y.id == yearId then
      { y with status := .closed, closedAt := some now, closedBy := userId }
    else y) }
  { s with academicYears := s.academicYears ++ [newYear] }

/-- Lines 197–204: clone one `ClassSubject` row onto the new class. -/
def cloneSubjectStep (newClassId newYearId : Id) (s : DB)
    (oldSubject : ClassSubject) : DB :=
  let sid := (generateId s).1
  let s := (generateId s).2
  let cloned : ClassSubject := { oldSubject with
    id := sid
    classId := newClassId
    academicYearId := newYearId }
  { s with classSubjects := s.classSubjects ++ [cloned] }

/-- Lines 212–219: clone one `TeacherAssignment` row onto the new class. -/
def cloneAssignmentStep (newClassId newYearId : Id) (s : DB)
    (oldAssignment : TeacherAssignment) : DB :=
  let aid := (generateId s).1
  let s := (generateId s).2
  let cloned : TeacherAssignment := { oldAssignment with
    id := aid
    classId := newClassId
    academicYearId := newYearId }
  { s with teacherAssignments := s.teacherAssignments ++ [cloned] }

/-- Transaction step 4 body (lines 179–220): clone one class of the closing
year into the new year (empty roster), then clone its `ClassSubject` and
`TeacherAssignment` rows.  Accumulator: state, old-id → new-id mapping,
`classesCreated`. -/
def cloneClassStep (newYearId : Id) (acc : DB × List (Id × Id) × Nat)
    (oldClass : ClassRec) : DB × List (Id × Id) × Nat :=
  let s := acc.1
  let mapping := acc.2.1
  let classesCreated := acc.2.2
  let newClassId := (generateId s).1
  let s := (generateId s).2
  let mapping := mapping ++ [(oldClass.id, newClassId)]
  let newClass : ClassRec := { oldClass with
    id := newClassId
    academicYearId := newYearId
    studentIds := [] }
  let s : DB := { s with classes := s.classes ++ [newClass] }
  let oldSubjects := s.classSubjects.filter (fun cs => cs.classId == oldClass.id)
  let s : DB := oldSubjects.foldl (cloneSubjectStep newClassId newYearId) s
  let oldAssignments :=
    s.teacherAssignments.filter (fun ta => ta.classId == oldClass.id)
  let s : DB := oldAssignments.foldl (cloneAssignmentStep newClassId newYearId) s
  (s, mapping, classesCreated + 1)

/-- Transaction step 4 (lines 178–220): clone every class of the closing
year. -/
def cloneClasses (newYearId : Id) (s : DB) (oldClasses : List ClassRec) :
    DB × List (Id × Id) × Nat :=
  oldClasses.foldl (cloneClassStep newYearId) (s, [], 0)

/-- Transaction step 5 body (lines 228–301): process one enrollment of the
closing year, branching on its end-of-year decision. -/
def processEnrollment (oldClasses : List ClassRec) (classMapping : List (Id × Id))
    (newYearId : Id) (newStartDate : JSDate) (acc : DB × CloseYearStats)
    (enrollment : StudentEnrollment) : DB × CloseYearStats :=
  let s := acc.1
  let stats := acc.2
  match oldClasses.find? (fun c => c.id == enrollment.classId) with
  | none => (s, stats)   -- `if (!oldClass) continue`
  | some oldClass =>
    if enrollment.decision = .passage then
      match getNextLevel oldClass.levelId with
      | none => (s, stats)   -- terminal level: graduate, nothing created
      | some nextLevel =>
        let newClasses := s.classes.filter (fun c => c.academicYearId == newYearId)
        match newClasses.find? (fun c => c.levelId == nextLevel.id) with
        | none => (s, stats)   -- no destination class: skipped silently
        | some targetClass =>
          let eid := (generateId s).1
          let s := (generateId s).2
          let newEnrollment : StudentEnrollment :=
            ⟨eid, enrollment.studentId, targetClass.id, newYearId, newStartDate,
              .pending, none, none, none, none, none⟩
          let s : DB :=
            { s with studentEnrollments := s.studentEnrollments ++ [newEnrollment] }
          let s : DB := { s with students := s.students.map (fun st =>
            if st.id == enrollment.studentId then { st with classId := targetClass.id }
            else st) }
          let s : DB := { s with classes := s.classes.map (fun c =>
            if c.id == targetClass.id then
              { c with studentIds := targetClass.studentIds ++ [enrollment.studentId] }
            else c) }
          (s, { stats with studentsPromoted := stats.studentsPromoted + 1 })
    else if enrollment.decision = .redoublement then
      match classMapping.find? (fun p => p.1 == enrollment.classId) with
      | none => (s, stats)   -- `if (newClassId)` falsy: no mapping entry
      | some p =>
        let newClassId := p.2
        let eid := (generateId s).1
        let s := (generateId s).2
        let newEnrollment : StudentEnrollment :=
          ⟨eid, enrollment.studentId, newClassId, newYearId, newStartDate,
            .pending, none, none, none, none, none⟩
        let s : DB :=
          { s with studentEnrollments := s.studentEnrollments ++ [newEnrollment] }
        let s : DB := { s with students := s.students.map (fun st =>
          if st.id == enrollment.studentId then { st with classId := newClassId }
          else st) }
        let s : DB :=
          match s.classes.find? (fun c => c.id == newClassId) with
          | none => s
          | some newClass =>
            { s with classes := s.classes.map (fun c =>
              if c.id == newClassId then
                { c with studentIds := newClass.studentIds ++ [enrollment.studentId] }
              else c) }
        (s, { stats with studentsRepeating := stats.studentsRepeating + 1 })
    else if enrollment.decision = .non_reconduit then
      let s : DB := { s with studentEnrollments := s.studentEnrollments.map (fun e =>
        if e.id == enrollment.id then { e with postCloseAction := some .pending }
        else e) }
      (s, { stats with studentsNotRenewed := stats.studentsNotRenewed + 1 })
    else
      (s, stats)   -- decision 'pending': no branch taken, nothing written

/-- The successful path of `closeYear` (lines 130–306): compute the new
year's name and dates, then run the transaction. -/
def closeYearGo (s : DB) (yearToClose : AcademicYear) (yearId : Id)
    (userId : Option Id) (now : JSDate) (currentYear : Nat) :
    DB × Except CloseErr (AcademicYear × CloseYearStats) :=
  let newYearName := getNextAcademicYearName currentYear yearToClose.name
  let newStartDate := computeNewStartDate yearToClose.endDate
  let newEndDate := computeNewEndDate newStartDate
  let newYearId := (generateId s).1
  let s := (generateId s).2
  let newYear : AcademicYear :=
    ⟨newYearId, yearToClose.establishmentId, newYearName, newStartDate,
      newEndDate, .active, none, none, now⟩
  -- transaction (lines 151–302)
  let s : DB := markClosedAddYear s yearId newYear userId now
  let oldClasses := s.classes.filter (fun c => c.academicYearId == yearId)
  let cloned := cloneClasses newYear.id s oldClasses
  let s := cloned.1
  let classMapping := cloned.2.1
  let classesCreated := cloned.2.2
  let enrollments :=
    s.studentEnrollments.filter (fun e => e.academicYearId == yearId)
  let processed := enrollments.foldl
    (processEnrollment oldClasses classMapping newYear.id newStartDate)
    (s, ⟨0, 0, 0, classesCreated⟩)
  (processed.1, .ok (newYear, processed.2))

/-- `closeYear(yearId)` (lines 118–307).  `userId` models `user?.id` of the
logged-in caller, `now` models `new Date()`, `currentYear` the
`new Date().getFullYear()` fallback inside `parseAcademicYearName`.
Returns the final state together with the thrown error or the
`{ newYear, stats }` result.  Error paths return before the transaction, so
the state is the input state there. -/
def closeYear (s : DB) (yearId : Id) (userId : Option Id) (now : JSDate)
    (currentYear : Nat) : DB × Except CloseErr (AcademicYear × CloseYearStats) :=
  match s.academicYears.find? (fun y => y.id == yearId) with
  | none => (s, .error .notFound)
  | some yearToClose =>
    if yearToClose.status = .closed then
      (s, .error .alreadyClosed)
    else
      closeYearGo s yearToClose yearId userId now currentYear

/-! ### Derived notions used by the claims -/

/-- One application of the promotion chain: follow `getNextLevel` once,
propagating exhaustion. -/
def nextLevelStep (o : Option String) : Option String :=
  o.bind (fun id => (getNextLevel id).map SchoolLevel.id)

/-- The years of one establishment currently holding `status = active`. -/
def activeYearsFor (s : DB) (est : Id) : List AcademicYear :=
  s.academicYears.filter (fun y => y.establishmentId == est && y.status == .active)

/-- Spec §8 invariant: for every establishment, at most one `AcademicYear`
has `status = active` (quantified over the establishments that occur in the
store; absent establishments have no years at all). -/
def OneActivePerEstablishment (s : DB) : Prop :=
  ∀ est ∈ s.academicYears.map AcademicYear.establishmentId,
    (activeYearsFor s est).length ≤ 1

instance (s : DB) : Decidable (OneActivePerEstablishment s) := by
  unfold OneActivePerEstablishment
  infer_instance

/-- Number of `StudentEnrollment` rows of a given year. -/
def totalEnrollments (s : DB) (yearId : Id) : Nat :=
  (s.studentEnrollments.filter (fun e => e.academicYearId == yearId)).length

/-- Modelled from the spec (§8): the remainder the claim C8 predicts —
"the count of `undecided`-decision records plus terminal-level graduates".
Used to compare the spec's accounting against the code's. -/
def claimedRemainder (s : DB) (yearId : Id) : Nat :=
  (s.studentEnrollments.filter (fun e =>
    e.academicYearId == yearId && e.decision == EnrollmentDecision.pending)).length +
  (s.studentEnrollments.filter (fun e =>
    e.academicYearId == yearId && e.decision == EnrollmentDecision.passage &&
      (match s.classes.find? (fun c => c.id == e.classId) with
        | none => false
        | some oldClass => (getNextLevel oldClass.levelId).isNone))).length

/-- A class with its roster forgotten: every field `closeYear`'s enrollment
loop leaves untouched (the loop only appends to `studentIds`). -/
def ClassRec.core (c : ClassRec) : ClassRec :=
  { c with studentIds := [] }

/-- The enrollments of the closing year that `closeYear`'s loop skips without
counting them in any statistic, read off the branch structure of the code:
missing class record, `passage` from a terminal level, `passage` without a
destination class in the new year, no mapping entry on `redoublement`, or an
undecided (`pending`) decision. -/
def closeSkipped (oldClasses : List ClassRec) (classMapping : List (Id × Id))
    (newYearClasses : List ClassRec) (e : StudentEnrollment) : Bool :=
  match oldClasses.find? (fun c => c.id == e.classId) with
  | none => true
  | some oldClass =>
    if e.decision = .passage then
      match getNextLevel oldClass.levelId with
      | none => true
      | some nextLevel =>
        (newYearClasses.find? (fun c => c.levelId == nextLevel.id)).isNone
    else if e.decision = .redoublement then
      (classMapping.find? (fun p => p.1 == e.classId)).isNone
    else if e.decision = .non_reconduit then
      false
    else
      true

/-- The three student statistics of a close run. -/
def CloseYearStats.sum3 (st : CloseYearStats) : Nat :=
  st.studentsPromoted + st.studentsRepeating + st.studentsNotRenewed

/-- `c` is the structural clone of `oc` into the new year: identical
field-for-field except for its fresh identity, the new year reference, and
the roster reset to empty. -/
def isCloneOf (newYearId : Id) (oc c : ClassRec) : Prop :=
  c = { oc with id := c.id, academicYearId := newYearId, studentIds := [] }

/-- The class record `closeYear` creates when cloning `oc` under a fresh id:
same fields, new year reference, empty roster (line 183–188). -/
def cloneOfClass (newYearId : Id) (newId : Id) (oc : ClassRec) : ClassRec :=
  { oc with id := newId, academicYearId := newYearId, studentIds := [] }

/-- `ns` is the clone of subject row `os` attached to the new class:
identical except identity, class reference and year reference. -/
def isSubjectCloneOf (newClassId newYearId : Id) (os ns : ClassSubject) : Prop :=
  ns = { os with id := ns.id, classId := newClassId, academicYearId := newYearId }

/-- `na` is the clone of assignment row `oa` attached to the new class:
identical except identity, class reference and year reference. -/
def isAssignmentCloneOf (newClassId newYearId : Id) (oa na : TeacherAssignment) :
    Prop :=
  na = { oa with id := na.id, classId := newClassId, academicYearId := newYearId }

/-- The skip condition of `closeYear`'s enrollment loop, read off the input
state alone: an enrollment of the closing year is skipped (counted in no
statistic) exactly when its class record is missing, its decision is still
`pending`, or it is a `passage` from a terminal level or towards a level for
which the closing year had no class (hence the new year gets no clone). -/
def closeSkippedFinal (s : DB) (yearId : Id) (e : StudentEnrollment) : Bool :=
  match (s.classes.filter (fun c => c.academicYearId == yearId)).find?
      (fun c => c.id == e.classId) with
  | none => true
  | some oldClass =>
    if e.decision = EnrollmentDecision.passage then
      match getNextLevel oldClass.levelId with
      | none => true
      | some nextLevel =>
        !((s.classes.filter (fun c => c.academicYearId == yearId)).any
          (fun c => c.levelId == nextLevel.id))
    else if e.decision = EnrollmentDecision.redoublement then
      false
    else if e.decision = EnrollmentDecision.non_reconduit then
      false
    else
      true

/-- A new-year enrollment row traces back to a source enrollment of the
closing year with the same student; if that source carried decision
`passage`, the row points at a new-year class whose level is the hierarchy
successor of the source class's level. -/
def tracesToSource (oldClasses C1 : List ClassRec) (newYearId : Id)
    (E0 : List StudentEnrollment) (x : StudentEnrollment) : Prop :=
  ∃ src ∈ E0, src.studentId = x.studentId ∧
    (src.decision = EnrollmentDecision.passage →
      ∃ oc ∈ oldClasses, oc.id = src.classId ∧
      ∃ nl, getNextLevel oc.levelId = some nl ∧
      ∃ c ∈ C1, c.id = x.classId ∧ c.academicYearId = newYearId ∧
        c.levelId = nl.id)

/-! ### Concrete states for witnesses and counterexamples -/

def exNow : JSDate := ⟨2025, 8, 1⟩

def exYearA : AcademicYear :=
  ⟨1, 0, "2024-2025", ⟨2024, 8, 1⟩, ⟨2025, 6, 31⟩, .active, none, none, ⟨2024, 8, 1⟩⟩

def exClassCP : ClassRec := ⟨10, 0, "CP A", "cp", "primaire", 20, [30], "emploi", 1⟩

def exClassCE1 : ClassRec := ⟨11, 0, "CE1 A", "ce1", "primaire", 21, [31], "emploi2", 1⟩

def exSubj : ClassSubject := ⟨40, 10, 50, 1, 2, 5, some 20⟩

def exTA : TeacherAssignment := ⟨60, 20, 10, 1, true, [50]⟩

def exEnrP : StudentEnrollment :=
  ⟨70, 30, 10, 1, ⟨2024, 8, 1⟩, .passage, none, none, none, none, none⟩

def exEnrR : StudentEnrollment :=
  ⟨71, 31, 11, 1, ⟨2024, 8, 1⟩, .redoublement, none, none, none, none, none⟩

def exStu30 : Student := ⟨30, 0, 80, 10, [], ⟨2015, 0, 1⟩, ⟨2024, 8, 1⟩, .active⟩

def exStu31 : Student := ⟨31, 0, 81, 11, [], ⟨2015, 0, 1⟩, ⟨2024, 8, 1⟩, .active⟩

/-- A full tenant: active year, a CP and a CE1 class, one promoted and one
retained student. -/
def exDBA : DB :=
  ⟨[exYearA], [exClassCP, exClassCE1], [exSubj], [exTA], [exEnrP, exEnrR],
    [exStu30, exStu31], 100⟩

/-- The same tenant with its year already closed. -/
def exDBClosed : DB :=
  ⟨[⟨1, 0, "2024-2025", ⟨2024, 8, 1⟩, ⟨2025, 6, 31⟩, .closed, some ⟨2025, 6, 31⟩,
      some 90, ⟨2024, 8, 1⟩⟩],
    [exClassCP, exClassCE1], [exSubj], [exTA], [exEnrP, exEnrR],
    [exStu30, exStu31], 100⟩

/-- A tenant whose only year is still `upcoming`. -/
def exDBUpcoming : DB :=
  ⟨[⟨1, 0, "2025-2026", ⟨2025, 8, 1⟩, ⟨2026, 6, 31⟩, .upcoming, none, none,
      ⟨2025, 5, 1⟩⟩], [], [], [], [], [], 100⟩

/-- A tenant with just one active year and no other records. -/
def exDBActiveSmall : DB := ⟨[exYearA], [], [], [], [], [], 100⟩

/-- A `createYear` draft requesting `status = active`. -/
def exDraftActive : YearDraft :=
  ⟨some "2025-2026", some ⟨2025, 8, 1⟩, some ⟨2026, 6, 30⟩, some .active⟩

/-- The spec's "simple promotion" scenario: one CP class, one student with
decision `passage`, and no CE1 class anywhere — the promotion finds no
destination and is skipped without being counted. -/
def exDBC8 : DB :=
  ⟨[exYearA], [exClassCP], [], [],
    [⟨70, 30, 10, 1, ⟨2024, 8, 1⟩, .passage, none, none, none, none, none⟩],
    [exStu30], 100⟩


/-! ### Helper lemmas -/

/-- A fold whose step preserves an observation preserves it globally. -/
theorem foldl_pres {α β γ : Type _} (f : β → α → β) (g : β → γ)
    (h : ∀ b a, g (f b a) = g b) (l : List α) (b : β) :
    g (l.foldl f b) = g b := by
  induction l generalizing b with
  | nil => rfl
  | cons x xs ih => rw [List.foldl_cons, ih, h]

/-- A fold whose step never decreases a measure never decreases it. -/
theorem foldl_mono {α β : Type _} (f : β → α → β) (g : β → Nat)
    (h : ∀ b a, g b ≤ g (f b a)) (l : List α) (b : β) :
    g b ≤ g (l.foldl f b) := by
  induction l generalizing b with
  | nil => exact le_refl _
  | cons x xs ih => exact le_trans (h b x) (ih (f b x))

theorem cloneSubjectStep_classSubjects (nc ny : Id) (s : DB) (x : ClassSubject) :
    (cloneSubjectStep nc ny s x).classSubjects =
      s.classSubjects ++ [{ x with id := s.nextId, classId := nc, academicYearId := ny }] :=
  rfl

theorem cloneAssignmentStep_teacherAssignments (nc ny : Id) (s : DB)
    (x : TeacherAssignment) :
    (cloneAssignmentStep nc ny s x).teacherAssignments =
      s.teacherAssignments ++ [{ x with id := s.nextId, classId := nc, academicYearId := ny }] :=
  rfl

/-- Characterisation of the subject-cloning fold of `cloneClassStep`. -/
theorem cloneSubjectFold_spec (nc ny : Id) :
    ∀ (subs : List ClassSubject) (s : DB),
    ∃ block,
      (subs.foldl (cloneSubjectStep nc ny) s).classSubjects =
        s.classSubjects ++ block ∧
      List.Forall₂ (isSubjectCloneOf nc ny) subs block ∧
      (∀ x ∈ block, x.classId = nc ∧ x.academicYearId = ny) ∧
      s.nextId ≤ (subs.foldl (cloneSubjectStep nc ny) s).nextId := by
  intro subs
  induction subs with
  | nil =>
    intro s
    exact ⟨[], by simp, List.Forall₂.nil, by simp, le_refl _⟩
  | cons x xs ih =>
    intro s
    obtain ⟨block, h1, h2, h3, h4⟩ := ih (cloneSubjectStep nc ny s x)
    refine ⟨({ x with id := s.nextId, classId := nc, academicYearId := ny } : ClassSubject) :: block, ?_, ?_, ?_, ?_⟩
    · rw [List.foldl_cons, h1, cloneSubjectStep_classSubjects, List.append_assoc,
        List.singleton_append]
    · exact List.Forall₂.cons rfl h2
    · intro y hy
      rcases List.mem_cons.mp hy with h | h
      · subst h; exact ⟨rfl, rfl⟩
      · exact h3 y h
    · rw [List.foldl_cons]
      exact le_trans (Nat.le_succ s.nextId) h4

/-- Characterisation of the assignment-cloning fold of `cloneClassStep`. -/
theorem cloneAssignmentFold_spec (nc ny : Id) :
    ∀ (tas : List TeacherAssignment) (s : DB),
    ∃ block,
      (tas.foldl (cloneAssignmentStep nc ny) s).teacherAssignments =
        s.teacherAssignments ++ block ∧
      List.Forall₂ (isAssignmentCloneOf nc ny) tas block ∧
      (∀ x ∈ block, x.classId = nc ∧ x.academicYearId = ny) ∧
      s.nextId ≤ (tas.foldl (cloneAssignmentStep nc ny) s).nextId := by
  intro tas
  induction tas with
  | nil =>
    intro s
    exact ⟨[], by simp, List.Forall₂.nil, by simp, le_refl _⟩
  | cons x xs ih =>
    intro s
    obtain ⟨block, h1, h2, h3, h4⟩ := ih (cloneAssignmentStep nc ny s x)
    refine ⟨({ x with id := s.nextId, classId := nc, academicYearId := ny } : TeacherAssignment) :: block, ?_, ?_, ?_, ?_⟩
    · rw [List.foldl_cons, h1, cloneAssignmentStep_teacherAssignments, List.append_assoc,
        List.singleton_append]
    · exact List.Forall₂.cons rfl h2
    · intro y hy
      rcases List.mem_cons.mp hy with h | h
      · subst h; exact ⟨rfl, rfl⟩
      · exact h3 y h
    · rw [List.foldl_cons]
      exact le_trans (Nat.le_succ s.nextId) h4

theorem subjFold_classes (nc ny : Id) (l : List ClassSubject) (s : DB) :
    (l.foldl (cloneSubjectStep nc ny) s).classes = s.classes :=
  foldl_pres (cloneSubjectStep nc ny) DB.classes (fun _ _ => rfl) l s

theorem subjFold_teacherAssignments (nc ny : Id) (l : List ClassSubject) (s : DB) :
    (l.foldl (cloneSubjectStep nc ny) s).teacherAssignments = s.teacherAssignments :=
  foldl_pres (cloneSubjectStep nc ny) DB.teacherAssignments (fun _ _ => rfl) l s

theorem subjFold_academicYears (nc ny : Id) (l : List ClassSubject) (s : DB) :
    (l.foldl (cloneSubjectStep nc ny) s).academicYears = s.academicYears :=
  foldl_pres (cloneSubjectStep nc ny) DB.academicYears (fun _ _ => rfl) l s

theorem subjFold_students (nc ny : Id) (l : List ClassSubject) (s : DB) :
    (l.foldl (cloneSubjectStep nc ny) s).students = s.students :=
  foldl_pres (cloneSubjectStep nc ny) DB.students (fun _ _ => rfl) l s

theorem subjFold_studentEnrollments (nc ny : Id) (l : List ClassSubject) (s : DB) :
    (l.foldl (cloneSubjectStep nc ny) s).studentEnrollments = s.studentEnrollments :=
  foldl_pres (cloneSubjectStep nc ny) DB.studentEnrollments (fun _ _ => rfl) l s

theorem assignFold_classes (nc ny : Id) (l : List TeacherAssignment) (s : DB) :
    (l.foldl (cloneAssignmentStep nc ny) s).classes = s.classes :=
  foldl_pres (cloneAssignmentStep nc ny) DB.classes (fun _ _ => rfl) l s

theorem assignFold_classSubjects (nc ny : Id) (l : List TeacherAssignment) (s : DB) :
    (l.foldl (cloneAssignmentStep nc ny) s).classSubjects = s.classSubjects :=
  foldl_pres (cloneAssignmentStep nc ny) DB.classSubjects (fun _ _ => rfl) l s

theorem assignFold_academicYears (nc ny : Id) (l : List TeacherAssignment) (s : DB) :
    (l.foldl (cloneAssignmentStep nc ny) s).academicYears = s.academicYears :=
  foldl_pres (cloneAssignmentStep nc ny) DB.academicYears (fun _ _ => rfl) l s

theorem assignFold_students (nc ny : Id) (l : List TeacherAssignment) (s : DB) :
    (l.foldl (cloneAssignmentStep nc ny) s).students = s.students :=
  foldl_pres (cloneAssignmentStep nc ny) DB.students (fun _ _ => rfl) l s

theorem assignFold_studentEnrollments (nc ny : Id) (l : List TeacherAssignment) (s : DB) :
    (l.foldl (cloneAssignmentStep nc ny) s).studentEnrollments = s.studentEnrollments :=
  foldl_pres (cloneAssignmentStep nc ny) DB.studentEnrollments (fun _ _ => rfl) l s

/-- Full characterisation of cloning one class (step 4 of the algorithm). -/
theorem cloneClassStep_spec (ny : Id) (acc : DB × List (Id × Id) × Nat)
    (oc : ClassRec) :
    ∃ subBlock taBlock,
      (cloneClassStep ny acc oc).1.classes =
        acc.1.classes ++ [cloneOfClass ny acc.1.nextId oc] ∧
      (cloneClassStep ny acc oc).1.classSubjects =
        acc.1.classSubjects ++ subBlock ∧
      List.Forall₂ (isSubjectCloneOf acc.1.nextId ny)
        (acc.1.classSubjects.filter (fun u => u.classId == oc.id)) subBlock ∧
      (∀ x ∈ subBlock, x.classId = acc.1.nextId ∧ x.academicYearId = ny) ∧
      (cloneClassStep ny acc oc).1.teacherAssignments =
        acc.1.teacherAssignments ++ taBlock ∧
      List.Forall₂ (isAssignmentCloneOf acc.1.nextId ny)
        (acc.1.teacherAssignments.filter (fun u => u.classId == oc.id)) taBlock ∧
      (∀ x ∈ taBlock, x.classId = acc.1.nextId ∧ x.academicYearId = ny) ∧
      (cloneClassStep ny acc oc).1.academicYears = acc.1.academicYears ∧
      (cloneClassStep ny acc oc).1.students = acc.1.students ∧
      (cloneClassStep ny acc oc).1.studentEnrollments = acc.1.studentEnrollments ∧
      acc.1.nextId < (cloneClassStep ny acc oc).1.nextId ∧
      (cloneClassStep ny acc oc).2.1 = acc.2.1 ++ [(oc.id, acc.1.nextId)] ∧
      (cloneClassStep ny acc oc).2.2 = acc.2.2 + 1 := by
  set s1 : DB := { acc.1 with classes := acc.1.classes ++ [cloneOfClass ny acc.1.nextId oc], nextId := acc.1.nextId + 1 } with hs1def
  obtain ⟨subBlock, ha1, ha2, ha3, ha4⟩ :=
    cloneSubjectFold_spec acc.1.nextId ny
      (s1.classSubjects.filter (fun u => u.classId == oc.id)) s1
  set s2 : DB := (s1.classSubjects.filter (fun u => u.classId == oc.id)).foldl
    (cloneSubjectStep acc.1.nextId ny) s1 with hs2def
  obtain ⟨taBlock, hb1, hb2, hb3, hb4⟩ :=
    cloneAssignmentFold_spec acc.1.nextId ny
      (s2.teacherAssignments.filter (fun u => u.classId == oc.id)) s2
  set s3 : DB := (s2.teacherAssignments.filter (fun u => u.classId == oc.id)).foldl
    (cloneAssignmentStep acc.1.nextId ny) s2 with hs3def
  have hstep : cloneClassStep ny acc oc = (s3, acc.2.1 ++ [(oc.id, acc.1.nextId)], acc.2.2 + 1) := rfl
  have hc2 : s2.classes = s1.classes := by rw [hs2def]; exact subjFold_classes _ _ _ _
  have hc3 : s3.classes = s2.classes := by rw [hs3def]; exact assignFold_classes _ _ _ _
  have hsub3 : s3.classSubjects = s2.classSubjects := by
    rw [hs3def]; exact assignFold_classSubjects _ _ _ _
  have hta2 : s2.teacherAssignments = s1.teacherAssignments := by
    rw [hs2def]; exact subjFold_teacherAssignments _ _ _ _
  refine ⟨subBlock, taBlock, ?_, ?_, ?_, ha3, ?_, ?_, hb3, ?_, ?_, ?_, ?_, ?_, ?_⟩
  · rw [hstep, hc3, hc2]
  · rw [hstep, hsub3, ha1]
  · exact ha2
  · rw [hstep, hb1, hta2]
  · rw [hta2] at hb2; exact hb2
  · rw [hstep]
    show s3.academicYears = acc.1.academicYears
    rw [hs3def, assignFold_academicYears, hs2def, subjFold_academicYears]
  · rw [hstep]
    show s3.students = acc.1.students
    rw [hs3def, assignFold_students, hs2def, subjFold_students]
  · rw [hstep]
    show s3.studentEnrollments = acc.1.studentEnrollments
    rw [hs3def, assignFold_studentEnrollments, hs2def, subjFold_studentEnrollments]
  · rw [hstep]
    show acc.1.nextId < s3.nextId
    calc acc.1.nextId < s1.nextId := Nat.lt_succ_self _
      _ ≤ s2.nextId := ha4
      _ ≤ s3.nextId := hb4
  · rw [hstep]
  · rw [hstep]

/-- `Forall₂` strengthening that remembers membership. -/
theorem forall₂_and_mem {α β : Type _} (R S : α → β → Prop) :
    ∀ (l₁ : List α) (l₂ : List β), List.Forall₂ R l₁ l₂ →
    (∀ a b, a ∈ l₁ → b ∈ l₂ → R a b → S a b) → List.Forall₂ S l₁ l₂ := by
  intro l₁ l₂ h
  induction h with
  | nil => intro _; exact List.Forall₂.nil
  | @cons a b la lb hab htail ih =>
    intro himp
    exact List.Forall₂.cons (himp _ _ (by simp) (by simp) hab)
      (ih (fun x y hx hy => himp x y (by simp [hx]) (by simp [hy])))

/-- Full characterisation of the class-cloning loop (step 4, lines 178–220). -/
theorem cloneClasses_fold_spec (ny : Id) (N0 : Nat) :
    ∀ (ocs : List ClassRec) (acc : DB × List (Id × Id) × Nat),
    N0 ≤ acc.1.nextId →
    (∀ oc ∈ ocs, oc.id < N0) →
    ∃ cloned subBlocks taBlocks,
      (ocs.foldl (cloneClassStep ny) acc).1.classes = acc.1.classes ++ cloned ∧
      List.Forall₂ (isCloneOf ny) ocs cloned ∧
      (cloned.map ClassRec.id).Pairwise (fun a b => a < b) ∧
      (∀ c ∈ cloned, acc.1.nextId ≤ c.id ∧
        c.id < (ocs.foldl (cloneClassStep ny) acc).1.nextId) ∧
      (ocs.foldl (cloneClassStep ny) acc).1.classSubjects =
        acc.1.classSubjects ++ subBlocks.flatten ∧
      List.Forall₂ (fun (p : ClassRec × ClassRec) block =>
        List.Forall₂ (isSubjectCloneOf p.2.id ny)
          (acc.1.classSubjects.filter (fun u => u.classId == p.1.id)) block ∧
        ∀ x ∈ block, x.classId = p.2.id ∧ x.academicYearId = ny)
        (ocs.zip cloned) subBlocks ∧
      (ocs.foldl (cloneClassStep ny) acc).1.teacherAssignments =
        acc.1.teacherAssignments ++ taBlocks.flatten ∧
      List.Forall₂ (fun (p : ClassRec × ClassRec) block =>
        List.Forall₂ (isAssignmentCloneOf p.2.id ny)
          (acc.1.teacherAssignments.filter (fun u => u.classId == p.1.id)) block ∧
        ∀ x ∈ block, x.classId = p.2.id ∧ x.academicYearId = ny)
        (ocs.zip cloned) taBlocks ∧
      (ocs.foldl (cloneClassStep ny) acc).1.academicYears = acc.1.academicYears ∧
      (ocs.foldl (cloneClassStep ny) acc).1.students = acc.1.students ∧
      (ocs.foldl (cloneClassStep ny) acc).1.studentEnrollments =
        acc.1.studentEnrollments ∧
      acc.1.nextId ≤ (ocs.foldl (cloneClassStep ny) acc).1.nextId ∧
      (ocs.foldl (cloneClassStep ny) acc).2.2 = acc.2.2 + ocs.length := by
  intro ocs
  induction ocs with
  | nil =>
    intro acc hN hids
    exact ⟨[], [], [], by simp, List.Forall₂.nil, List.Pairwise.nil, by simp,
      by simp, List.Forall₂.nil, by simp, List.Forall₂.nil, rfl, rfl, rfl,
      le_refl _, by simp⟩
  | cons oc rest ih =>
    intro acc hN hids
    obtain ⟨sb, tb, e1, e2, e3, e4, e5, e6, e7, e8, e9, e10, e11, e12, e13⟩ :=
      cloneClassStep_spec ny acc oc
    have hN' : N0 ≤ (cloneClassStep ny acc oc).1.nextId :=
      le_trans hN (le_of_lt e11)
    obtain ⟨cloned_r, sub_r, ta_r, f1, f2, f3, f4, f5, f6, f7, f8, f9, f10, f11,
      f12, f13⟩ := ih (cloneClassStep ny acc oc) hN'
      (fun c hc => hids c (List.mem_cons_of_mem _ hc))
    rw [List.foldl_cons]
    refine ⟨cloneOfClass ny acc.1.nextId oc :: cloned_r, sb :: sub_r, tb :: ta_r,
      ?_, ?_, ?_, ?_, ?_, ?_, ?_, ?_, ?_, ?_, ?_, ?_, ?_⟩
    · rw [f1, e1, List.append_assoc, List.singleton_append]
    · exact List.Forall₂.cons rfl f2
    · rw [List.map_cons]
      refine List.Pairwise.cons ?_ f3
      intro b hb
      obtain ⟨c, hcmem, hcid⟩ := List.mem_map.mp hb
      have hle := (f4 c hcmem).1
      show acc.1.nextId < b
      exact lt_of_lt_of_le e11 (le_trans hle (le_of_eq hcid))
    · intro c hc
      rcases List.mem_cons.mp hc with h | h
      · subst h
        constructor
        · exact le_refl _
        · show acc.1.nextId < _
          exact lt_of_lt_of_le e11 f12
      · obtain ⟨hlo, hhi⟩ := f4 c h
        exact ⟨le_trans (le_of_lt e11) hlo, hhi⟩
    · rw [f5, e2, List.append_assoc]
      rfl
    · rw [List.zip_cons_cons]
      refine List.Forall₂.cons ⟨e3, e4⟩ ?_
      refine forall₂_and_mem _ _ _ _ f6 ?_
      rintro ⟨p1, p2⟩ block hp hblock ⟨hf, hprops⟩
      have hp1 : p1 ∈ rest := (List.of_mem_zip hp).1
      have hfiltereq :
          (cloneClassStep ny acc oc).1.classSubjects.filter
              (fun u => u.classId == p1.id) =
            acc.1.classSubjects.filter (fun u => u.classId == p1.id) := by
        rw [e2, List.filter_append]
        have : sb.filter (fun u => u.classId == p1.id) = [] := by
          rw [List.filter_eq_nil_iff]
          intro x hx
          have hxc := (e4 x hx).1
          have hlt := hids p1 (List.mem_cons_of_mem _ hp1)
          simp only [beq_iff_eq]
          intro heq
          apply Nat.lt_irrefl acc.1.nextId
          calc acc.1.nextId = x.classId := hxc.symm
            _ = p1.id := heq
            _ < N0 := hlt
            _ ≤ acc.1.nextId := hN
        rw [this, List.append_nil]
      rw [hfiltereq] at hf
      exact ⟨hf, hprops⟩
    · rw [f7, e5, List.append_assoc]
      rfl
    · rw [List.zip_cons_cons]
      refine List.Forall₂.cons ⟨e6, e7⟩ ?_
      refine forall₂_and_mem _ _ _ _ f8 ?_
      rintro ⟨p1, p2⟩ block hp hblock ⟨hf, hprops⟩
      have hp1 : p1 ∈ rest := (List.of_mem_zip hp).1
      have hfiltereq :
          (cloneClassStep ny acc oc).1.teacherAssignments.filter
              (fun u => u.classId == p1.id) =
            acc.1.teacherAssignments.filter (fun u => u.classId == p1.id) := by
        rw [e5, List.filter_append]
        have : tb.filter (fun u => u.classId == p1.id) = [] := by
          rw [List.filter_eq_nil_iff]
          intro x hx
          have hxc := (e7 x hx).1
          have hlt := hids p1 (List.mem_cons_of_mem _ hp1)
          simp only [beq_iff_eq]
          intro heq
          apply Nat.lt_irrefl acc.1.nextId
          calc acc.1.nextId = x.classId := hxc.symm
            _ = p1.id := heq
            _ < N0 := hlt
            _ ≤ acc.1.nextId := hN
        rw [this, List.append_nil]
      rw [hfiltereq] at hf
      exact ⟨hf, hprops⟩
    · rw [f9, e8]
    · rw [f10, e9]
    · rw [f11, e10]
    · exact le_trans (le_of_lt e11) f12
    · rw [f13, e13, List.length_cons]
      omega

theorem bool_eq_of_iff {a b : Bool} (h : a = true ↔ b = true) : a = b := by
  cases a <;> cases b <;> simp_all

/-- Updating rosters never changes the `core` image of a class list. -/
theorem map_core_roster_update (l : List ClassRec) (tid : Id) (r : List Id) :
    (l.map (fun c => if c.id == tid then { c with studentIds := r } else c)).map
        ClassRec.core = l.map ClassRec.core := by
  rw [List.map_map]
  apply List.map_congr_left
  intro c _
  by_cases h : c.id = tid <;> simp [h, ClassRec.core]

theorem processEnrollment_academicYears (ocs : List ClassRec)
    (mp : List (Id × Id)) (ny : Id) (nsd : JSDate) (acc : DB × CloseYearStats)
    (e : StudentEnrollment) :
    ((processEnrollment ocs mp ny nsd acc e).1).academicYears =
      acc.1.academicYears := by
  unfold processEnrollment
  dsimp only
  repeat' split
  all_goals rfl

theorem processEnrollment_classSubjects (ocs : List ClassRec)
    (mp : List (Id × Id)) (ny : Id) (nsd : JSDate) (acc : DB × CloseYearStats)
    (e : StudentEnrollment) :
    ((processEnrollment ocs mp ny nsd acc e).1).classSubjects =
      acc.1.classSubjects := by
  unfold processEnrollment
  dsimp only
  repeat' split
  all_goals rfl

theorem processEnrollment_teacherAssignments (ocs : List ClassRec)
    (mp : List (Id × Id)) (ny : Id) (nsd : JSDate) (acc : DB × CloseYearStats)
    (e : StudentEnrollment) :
    ((processEnrollment ocs mp ny nsd acc e).1).teacherAssignments =
      acc.1.teacherAssignments := by
  unfold processEnrollment
  dsimp only
  repeat' split
  all_goals rfl

theorem processEnrollment_core (ocs : List ClassRec)
    (mp : List (Id × Id)) (ny : Id) (nsd : JSDate) (acc : DB × CloseYearStats)
    (e : StudentEnrollment) :
    ((processEnrollment ocs mp ny nsd acc e).1).classes.map ClassRec.core =
      acc.1.classes.map ClassRec.core := by
  unfold processEnrollment
  dsimp only
  repeat' split
  all_goals first
    | rfl
    | (exact map_core_roster_update _ _ _)

/-- Whether a matching promotion target exists depends only on the `core`
image of the class list. -/
theorem targetFind_isSome_stable (l l' : List ClassRec)
    (h : l.map ClassRec.core = l'.map ClassRec.core) (ny : Id) (x : String) :
    ((l.filter (fun c => c.academicYearId == ny)).find?
        (fun c => c.levelId == x)).isSome =
      ((l'.filter (fun c => c.academicYearId == ny)).find?
        (fun c => c.levelId == x)).isSome := by
  have key : ∀ (m : List ClassRec),
      ((m.filter (fun c => c.academicYearId == ny)).find?
          (fun c => c.levelId == x)).isSome =
        (m.map ClassRec.core).any
          (fun c => c.academicYearId == ny && c.levelId == x) := by
    intro m
    rw [List.any_map]
    apply bool_eq_of_iff
    rw [List.find?_isSome, List.any_eq_true]
    constructor
    · rintro ⟨c, hc, hl⟩
      rw [List.mem_filter] at hc
      refine ⟨c, hc.1, ?_⟩
      show (c.academicYearId == ny && c.levelId == x) = true
      rw [Bool.and_eq_true]
      exact ⟨hc.2, hl⟩
    · rintro ⟨c, hc, hand⟩
      have hand' : (c.academicYearId == ny && c.levelId == x) = true := hand
      rw [Bool.and_eq_true] at hand'
      exact ⟨c, List.mem_filter.mpr ⟨hc, hand'.1⟩, hand'.2⟩
  rw [key l, key l', h]

/-- Transfer a member along an equality of `core` images. -/
theorem mem_core_transfer (l l' : List ClassRec)
    (h : l.map ClassRec.core = l'.map ClassRec.core) (c : ClassRec)
    (hc : c ∈ l) :
    ∃ c' ∈ l', ClassRec.core c' = ClassRec.core c := by
  have hmem : ClassRec.core c ∈ l'.map ClassRec.core := by
    rw [← h]
    exact List.mem_map_of_mem _ hc
  obtain ⟨c', hc', he⟩ := List.mem_map.mp hmem
  exact ⟨c', hc', he⟩

theorem processEnrollment_classesCreated (ocs : List ClassRec)
    (mp : List (Id × Id)) (ny : Id) (nsd : JSDate) (acc : DB × CloseYearStats)
    (e : StudentEnrollment) :
    ((processEnrollment ocs mp ny nsd acc e).2).classesCreated =
      acc.2.classesCreated := by
  unfold processEnrollment
  dsimp only
  repeat' split
  all_goals rfl

/-- The three student statistics grow by exactly one per non-skipped
enrollment, and the skip condition can be read off the `core` image of the
new-year classes. -/
theorem processEnrollment_sum3 (ocs : List ClassRec)
    (mp : List (Id × Id)) (ny : Id) (nsd : JSDate) (C1 : List ClassRec)
    (acc : DB × CloseYearStats) (e : StudentEnrollment)
    (hcore : acc.1.classes.map ClassRec.core = C1.map ClassRec.core) :
    ((processEnrollment ocs mp ny nsd acc e).2).sum3 =
      acc.2.sum3 +
        (if closeSkipped ocs mp (C1.filter (fun c => c.academicYearId == ny)) e
          then 0 else 1) := by
  unfold processEnrollment closeSkipped
  dsimp only
  cases hfind : ocs.find? (fun c => c.id == e.classId) with
  | none => simp
  | some oldClass =>
    dsimp only
    by_cases hdec : e.decision = EnrollmentDecision.passage
    · rw [if_pos hdec, if_pos hdec]
      cases hnl : getNextLevel oldClass.levelId with
      | none => simp
      | some nl =>
        dsimp only
        have hstable := targetFind_isSome_stable acc.1.classes C1 hcore ny nl.id
        cases hfind2 : (acc.1.classes.filter
            (fun c => c.academicYearId == ny)).find?
            (fun c => c.levelId == nl.id) with
        | none =>
          cases hfind3 : (C1.filter (fun c => c.academicYearId == ny)).find?
              (fun c => c.levelId == nl.id) with
          | none => simp
          | some y =>
            rw [hfind2, hfind3] at hstable
            simp at hstable
        | some tc =>
          cases hfind3 : (C1.filter (fun c => c.academicYearId == ny)).find?
              (fun c => c.levelId == nl.id) with
          | none =>
            rw [hfind2, hfind3] at hstable
            simp at hstable
          | some y =>
            dsimp only
            simp [CloseYearStats.sum3]
            omega
    · rw [if_neg hdec, if_neg hdec]
      by_cases hdec2 : e.decision = EnrollmentDecision.redoublement
      · rw [if_pos hdec2, if_pos hdec2]
        cases hmp : mp.find? (fun p => p.1 == e.classId) with
        | none => simp
        | some p =>
          dsimp only
          simp [CloseYearStats.sum3]
          omega
      · rw [if_neg hdec2, if_neg hdec2]
        by_cases hdec3 : e.decision = EnrollmentDecision.non_reconduit
        · rw [if_pos hdec3, if_pos hdec3]
          simp [CloseYearStats.sum3]
          omega
        · rw [if_neg hdec3, if_neg hdec3]
          simp

/-- Structure of the enrollment list after processing one enrollment: existing
rows keep their year, student, class and decision (only the post-closure flag
may change), and any appended row is a new-year row for the processed student
that, on a `passage` decision, points at a successor-level class. -/
theorem processEnrollment_enroll_step (ocs : List ClassRec)
    (mp : List (Id × Id)) (ny : Id) (nsd : JSDate) (C1 : List ClassRec)
    (acc : DB × CloseYearStats) (e : StudentEnrollment)
    (hcore : acc.1.classes.map ClassRec.core = C1.map ClassRec.core) :
    ∃ upd added,
      (∀ x, (upd x).academicYearId = x.academicYearId ∧
        (upd x).studentId = x.studentId ∧ (upd x).classId = x.classId ∧
        (upd x).decision = x.decision) ∧
      (processEnrollment ocs mp ny nsd acc e).1.studentEnrollments =
        acc.1.studentEnrollments.map upd ++ added ∧
      (∀ x ∈ added, x.academicYearId = ny ∧ x.studentId = e.studentId ∧
        (e.decision = EnrollmentDecision.passage →
          ∃ oc ∈ ocs, oc.id = e.classId ∧
          ∃ nl, getNextLevel oc.levelId = some nl ∧
          ∃ c ∈ C1, c.id = x.classId ∧ c.academicYearId = ny ∧
            c.levelId = nl.id)) := by
  unfold processEnrollment
  dsimp only
  cases hfind : ocs.find? (fun c => c.id == e.classId) with
  | none => exact ⟨id, [], by simp, by simp, by simp⟩
  | some oldClass =>
    dsimp only
    by_cases hdec : e.decision = EnrollmentDecision.passage
    · rw [if_pos hdec]
      cases hnl : getNextLevel oldClass.levelId with
      | none => exact ⟨id, [], by simp, by simp, by simp⟩
      | some nl =>
        dsimp only
        cases hfind2 : (acc.1.classes.filter
            (fun c => c.academicYearId == ny)).find?
            (fun c => c.levelId == nl.id) with
        | none => exact ⟨id, [], by simp, by simp, by simp⟩
        | some tc =>
          dsimp only
          refine ⟨id, [⟨(generateId acc.1).1, e.studentId, tc.id, ny, nsd,
            .pending, none, none, none, none, none⟩], by simp,
            by simp [generateId], ?_⟩
          intro x hx
          rw [List.mem_singleton] at hx
          subst hx
          refine ⟨rfl, rfl, fun _ => ?_⟩
          have htc_mem_f : tc ∈ acc.1.classes.filter
              (fun c => c.academicYearId == ny) :=
            List.mem_of_find?_eq_some hfind2
          have htc_lvl := List.find?_some hfind2
          simp only [beq_iff_eq] at htc_lvl
          rw [List.mem_filter] at htc_mem_f
          obtain ⟨htc_mem, htc_year⟩ := htc_mem_f
          simp only [beq_iff_eq] at htc_year
          obtain ⟨c', hc'_mem, hc'_core⟩ :=
            mem_core_transfer acc.1.classes C1 hcore tc htc_mem
          have hoc_mem : oldClass ∈ ocs := List.mem_of_find?_eq_some hfind
          have hoc_id := List.find?_some hfind
          simp only [beq_iff_eq] at hoc_id
          refine ⟨oldClass, hoc_mem, hoc_id, nl, hnl,
            c', hc'_mem, ?_, ?_, ?_⟩
          · have h1 := congrArg ClassRec.id hc'_core
            exact h1
          · have h1 := congrArg ClassRec.academicYearId hc'_core
            show c'.academicYearId = ny
            rw [← htc_year]
            exact h1
          · have h1 := congrArg ClassRec.levelId hc'_core
            show c'.levelId = nl.id
            rw [← htc_lvl]
            exact h1
    · rw [if_neg hdec]
      by_cases hdec2 : e.decision = EnrollmentDecision.redoublement
      · rw [if_pos hdec2]
        cases hmp : mp.find? (fun p => p.1 == e.classId) with
        | none => exact ⟨id, [], by simp, by simp, by simp⟩
        | some p =>
          dsimp only
          refine ⟨id, [⟨(generateId acc.1).1, e.studentId, p.2, ny, nsd,
            .pending, none, none, none, none, none⟩], by simp, ?_, ?_⟩
          · split <;> simp [generateId]
          · intro x hx
            rw [List.mem_singleton] at hx
            subst hx
            exact ⟨rfl, rfl, fun hpass => absurd hpass hdec⟩
      · rw [if_neg hdec2]
        by_cases hdec3 : e.decision = EnrollmentDecision.non_reconduit
        · rw [if_pos hdec3]
          refine ⟨(fun x => if x.id == e.id then
              { x with postCloseAction := some PostCloseAction.pending }
            else x), [], ?_, by simp, by simp⟩
          intro x
          by_cases h : x.id = e.id <;> simp [h]
        · rw [if_neg hdec3]
          exact ⟨id, [], by simp, by simp, by simp⟩

/-- Composite behaviour of the enrollment-processing loop (step 5, lines
222–301): reference tables preserved, class cores preserved, statistics
accounting, and the shape of the final enrollment list. -/
theorem processFold_spec (ocs : List ClassRec) (mp : List (Id × Id)) (ny : Id)
    (nsd : JSDate) (C1 : List ClassRec) (E0 : List StudentEnrollment) :
    ∀ (todo : List StudentEnrollment) (acc : DB × CloseYearStats),
    (∀ x ∈ todo, x ∈ E0) →
    acc.1.classes.map ClassRec.core = C1.map ClassRec.core →
    (todo.foldl (processEnrollment ocs mp ny nsd) acc).1.academicYears =
      acc.1.academicYears ∧
    (todo.foldl (processEnrollment ocs mp ny nsd) acc).1.classSubjects =
      acc.1.classSubjects ∧
    (todo.foldl (processEnrollment ocs mp ny nsd) acc).1.teacherAssignments =
      acc.1.teacherAssignments ∧
    (todo.foldl (processEnrollment ocs mp ny nsd) acc).1.classes.map
      ClassRec.core = C1.map ClassRec.core ∧
    (todo.foldl (processEnrollment ocs mp ny nsd) acc).2.classesCreated =
      acc.2.classesCreated ∧
    (todo.foldl (processEnrollment ocs mp ny nsd) acc).2.sum3 =
      acc.2.sum3 + todo.countP (fun x =>
        !(closeSkipped ocs mp (C1.filter (fun c => c.academicYearId == ny)) x)) ∧
    (∀ x ∈ (todo.foldl (processEnrollment ocs mp ny nsd) acc).1.studentEnrollments,
      (∃ x0 ∈ acc.1.studentEnrollments,
        x.academicYearId = x0.academicYearId ∧ x.studentId = x0.studentId ∧
        x.classId = x0.classId ∧ x.decision = x0.decision) ∨
      (x.academicYearId = ny ∧ tracesToSource ocs C1 ny E0 x)) := by
  intro todo
  induction todo with
  | nil =>
    intro acc hsub hcore
    refine ⟨rfl, rfl, rfl, hcore, rfl, by simp, ?_⟩
    intro x hx
    exact Or.inl ⟨x, hx, rfl, rfl, rfl, rfl⟩
  | cons e todo' ih =>
    intro acc hsub hcore
    have hcore' : (processEnrollment ocs mp ny nsd acc e).1.classes.map
        ClassRec.core = C1.map ClassRec.core := by
      rw [processEnrollment_core]
      exact hcore
    obtain ⟨g1, g2, g3, g4, g5, g6, g7⟩ :=
      ih (processEnrollment ocs mp ny nsd acc e)
        (fun x hx => hsub x (List.mem_cons_of_mem _ hx)) hcore'
    rw [List.foldl_cons]
    obtain ⟨upd, added, hupd, henr, hadded⟩ :=
      processEnrollment_enroll_step ocs mp ny nsd C1 acc e hcore
    refine ⟨?_, ?_, ?_, g4, ?_, ?_, ?_⟩
    · rw [g1, processEnrollment_academicYears]
    · rw [g2, processEnrollment_classSubjects]
    · rw [g3, processEnrollment_teacherAssignments]
    · rw [g5, processEnrollment_classesCreated]
    · rw [g6, processEnrollment_sum3 ocs mp ny nsd C1 acc e hcore,
        List.countP_cons]
      cases hsk : closeSkipped ocs mp
          (C1.filter (fun c => c.academicYearId == ny)) e <;>
        simp <;> omega
    · intro x hx
      rcases g7 x hx with ⟨x0, hx0mem, hf⟩ | hnew
      · rw [henr] at hx0mem
        rcases List.mem_append.mp hx0mem with hmap | haddmem
        · obtain ⟨x1, hx1, hx1e⟩ := List.mem_map.mp hmap
          obtain ⟨p1, p2, p3, p4⟩ := hupd x1
          rw [← hx1e] at hf
          exact Or.inl ⟨x1, hx1, by rw [hf.1, p1], by rw [hf.2.1, p2],
            by rw [hf.2.2.1, p3], by rw [hf.2.2.2, p4]⟩
        · obtain ⟨hyear, hstu, htr⟩ := hadded x0 haddmem
          refine Or.inr ⟨by rw [hf.1, hyear], ?_⟩
          refine ⟨e, hsub e (List.mem_cons_self _ _),
            (by rw [hf.2.1, hstu] : x.studentId = e.studentId).symm,
            fun hpass => ?_⟩
          obtain ⟨oc, hocm, hocid, nl, hnl, c, hcm, hcid, hcy, hcl⟩ := htr hpass
          exact ⟨oc, hocm, hocid, nl, hnl, c, hcm,
            by rw [hf.2.2.1]; exact hcid, hcy, hcl⟩
      · exact Or.inr hnew

theorem cloneClassStep_academicYears (ny : Id) (acc : DB × List (Id × Id) × Nat)
    (oc : ClassRec) :
    (cloneClassStep ny acc oc).1.academicYears = acc.1.academicYears := by
  obtain ⟨sb, tb, e1, e2, e3, e4, e5, e6, e7, e8, e9, e10, e11, e12, e13⟩ :=
    cloneClassStep_spec ny acc oc
  exact e8

theorem cloneClassStep_mapping (ny : Id) (acc : DB × List (Id × Id) × Nat)
    (oc : ClassRec) :
    (cloneClassStep ny acc oc).2.1 = acc.2.1 ++ [(oc.id, acc.1.nextId)] := rfl

theorem cloneFold_academicYears (ny : Id) (ocs : List ClassRec)
    (acc : DB × List (Id × Id) × Nat) :
    (ocs.foldl (cloneClassStep ny) acc).1.academicYears = acc.1.academicYears :=
  foldl_pres (cloneClassStep ny) (fun a => a.1.academicYears)
    (fun b a => cloneClassStep_academicYears ny b a) ocs acc

/-- The mapping built by the clone loop records exactly the old class ids. -/
theorem cloneClasses_mapping (ny : Id) :
    ∀ (ocs : List ClassRec) (acc : DB × List (Id × Id) × Nat),
    ∃ mtail, (ocs.foldl (cloneClassStep ny) acc).2.1 = acc.2.1 ++ mtail ∧
      mtail.map Prod.fst = ocs.map ClassRec.id := by
  intro ocs
  induction ocs with
  | nil => intro acc; exact ⟨[], by simp, rfl⟩
  | cons oc rest ih =>
    intro acc
    obtain ⟨mtail, h1, h2⟩ := ih (cloneClassStep ny acc oc)
    refine ⟨(oc.id, acc.1.nextId) :: mtail, ?_, ?_⟩
    · rw [List.foldl_cons, h1, cloneClassStep_mapping, List.append_assoc,
        List.singleton_append]
    · rw [List.map_cons, h2, List.map_cons]

theorem cloneClasses_academicYears (ny : Id) (s : DB) (ocs : List ClassRec) :
    (cloneClasses ny s ocs).1.academicYears = s.academicYears :=
  cloneFold_academicYears ny ocs (s, [], 0)

theorem processFold_academicYears (ocs : List ClassRec) (mp : List (Id × Id))
    (ny : Id) (nsd : JSDate) (l : List StudentEnrollment)
    (acc : DB × CloseYearStats) :
    (l.foldl (processEnrollment ocs mp ny nsd) acc).1.academicYears =
      acc.1.academicYears :=
  foldl_pres (processEnrollment ocs mp ny nsd) (fun a => a.1.academicYears)
    (fun b a => processEnrollment_academicYears ocs mp ny nsd b a) l acc

/-- The academic-year table after a successful close: the closed year updated
in place, the new active year appended. -/
theorem closeYearGo_academicYears (s : DB) (yr : AcademicYear) (yearId : Id)
    (u : Option Id) (now : JSDate) (cy : Nat) :
    (closeYearGo s yr yearId u now cy).1.academicYears =
      (s.academicYears.map (fun y => if y.id == yearId then
        { y with status := AcademicYearStatus.closed, closedAt := some now, closedBy := u }
        else y)) ++
      [⟨s.nextId, yr.establishmentId, getNextAcademicYearName cy yr.name,
        computeNewStartDate yr.endDate,
        computeNewEndDate (computeNewStartDate yr.endDate),
        AcademicYearStatus.active, none, none, now⟩] := by
  unfold closeYearGo
  dsimp only
  rw [processFold_academicYears, cloneClasses_academicYears]
  rfl

/-- The new-year record a successful `closeYear` reports. -/
theorem closeYear_ok_newYear (s : DB) (yearId : Id) (u : Option Id)
    (now : JSDate) (cy : Nat) (yr : AcademicYear) (ny : AcademicYear)
    (stats : CloseYearStats)
    (hf : s.academicYears.find? (fun y => y.id == yearId) = some yr)
    (hs : yr.status ≠ AcademicYearStatus.closed)
    (hrun : (closeYear s yearId u now cy).2 = Except.ok (ny, stats)) :
    ny = ⟨s.nextId, yr.establishmentId, getNextAcademicYearName cy yr.name,
      computeNewStartDate yr.endDate,
      computeNewEndDate (computeNewStartDate yr.endDate),
      AcademicYearStatus.active, none, none, now⟩ := by
  unfold closeYear at hrun
  rw [hf] at hrun
  dsimp only at hrun
  rw [if_neg hs] at hrun
  have h2 := congrArg (fun z => match z with
    | Except.ok rr => rr.1
    | Except.error _ => ny) hrun
  exact h2.symm

/-- A successful `closeYear` runs `closeYearGo` on the found year. -/
theorem closeYear_ok_go (s : DB) (yearId : Id) (u : Option Id)
    (now : JSDate) (cy : Nat) (yr : AcademicYear)
    (hf : s.academicYears.find? (fun y => y.id == yearId) = some yr)
    (hs : yr.status ≠ AcademicYearStatus.closed) :
    closeYear s yearId u now cy = closeYearGo s yr yearId u now cy := by
  unfold closeYear
  rw [hf]
  dsimp only
  rw [if_neg hs]

/-- A successful result determines the found year's existence. -/
theorem closeYear_ok_found (s : DB) (yearId : Id) (u : Option Id)
    (now : JSDate) (cy : Nat) (r : AcademicYear × CloseYearStats)
    (hrun : (closeYear s yearId u now cy).2 = Except.ok r) :
    ∃ yr, s.academicYears.find? (fun y => y.id == yearId) = some yr ∧
      yr.status ≠ AcademicYearStatus.closed := by
  unfold closeYear at hrun
  cases hf : s.academicYears.find? (fun y => y.id == yearId) with
  | none => rw [hf] at hrun; cases hrun
  | some yr =>
    rw [hf] at hrun
    dsimp only at hrun
    by_cases hs : yr.status = AcademicYearStatus.closed
    · rw [if_pos hs] at hrun; cases hrun
    · exact ⟨yr, rfl, hs⟩

theorem cloneClassStep_studentEnrollments (ny : Id)
    (acc : DB × List (Id × Id) × Nat) (oc : ClassRec) :
    (cloneClassStep ny acc oc).1.studentEnrollments =
      acc.1.studentEnrollments := by
  obtain ⟨sb, tb, e1, e2, e3, e4, e5, e6, e7, e8, e9, e10, e11, e12, e13⟩ :=
    cloneClassStep_spec ny acc oc
  exact e10

theorem cloneClasses_studentEnrollments (ny : Id) (s : DB)
    (ocs : List ClassRec) :
    (cloneClasses ny s ocs).1.studentEnrollments = s.studentEnrollments :=
  foldl_pres (cloneClassStep ny) (fun a => a.1.studentEnrollments)
    (fun b a => cloneClassStep_studentEnrollments ny b a) ocs (s, [], 0)

theorem forall₂_mem_right {α β : Type _} (R : α → β → Prop) :
    ∀ {l₁ : List α} {l₂ : List β}, List.Forall₂ R l₁ l₂ →
    ∀ b ∈ l₂, ∃ a ∈ l₁, R a b := by
  intro l₁ l₂ h
  induction h with
  | nil => intro b hb; cases hb
  | @cons a b la lb hab htail ih =>
    intro x hx
    rcases List.mem_cons.mp hx with h1 | h1
    · exact ⟨a, by simp, h1 ▸ hab⟩
    · obtain ⟨a', ha', har⟩ := ih x h1
      exact ⟨a', by simp [ha'], har⟩

theorem countP_split {α : Type _} (p : α → Bool) :
    ∀ (l : List α), l.countP p + l.countP (fun a => !p a) = l.length := by
  intro l
  induction l with
  | nil => rfl
  | cons x xs ih =>
    rw [List.countP_cons, List.countP_cons, List.length_cons]
    cases hp : p x <;> simp [hp] <;> omega

theorem filter_core_eq (l l' : List ClassRec)
    (h : l.map ClassRec.core = l'.map ClassRec.core) (p : ClassRec → Bool) :
    (l.filter (fun c => p (ClassRec.core c))).map ClassRec.core =
      (l'.filter (fun c => p (ClassRec.core c))).map ClassRec.core := by
  have key : ∀ (m : List ClassRec),
      (m.filter (fun c => p (ClassRec.core c))).map ClassRec.core =
        (m.map ClassRec.core).filter p := by
    intro m
    rw [List.filter_map]
    rfl
  rw [key, key, h]

theorem filter_length_of_core_eq (l l' : List ClassRec)
    (h : l.map ClassRec.core = l'.map ClassRec.core) (p : ClassRec → Bool) :
    (l.filter (fun c => p (ClassRec.core c))).length =
      (l'.filter (fun c => p (ClassRec.core c))).length := by
  have := congrArg List.length (filter_core_eq l l' h p)
  rw [List.length_map, List.length_map] at this
  exact this

/-- The canonical form of the successful close: stages spelled out against
the entry state. -/
theorem closeYearGo_eq (s : DB) (yr : AcademicYear) (yearId : Id)
    (u : Option Id) (now : JSDate) (cy : Nat) :
    closeYearGo s yr yearId u now cy =
      (let newYear : AcademicYear :=
        ⟨s.nextId, yr.establishmentId, getNextAcademicYearName cy yr.name,
          computeNewStartDate yr.endDate,
          computeNewEndDate (computeNewStartDate yr.endDate),
          AcademicYearStatus.active, none, none, now⟩
       let s1 : DB := markClosedAddYear { s with nextId := s.nextId + 1 }
         yearId newYear u now
       let ocs := s.classes.filter (fun c => c.academicYearId == yearId)
       let cl := cloneClasses s.nextId s1 ocs
       let enr := s.studentEnrollments.filter
         (fun e => e.academicYearId == yearId)
       let pr := enr.foldl
         (processEnrollment ocs cl.2.1 s.nextId (computeNewStartDate yr.endDate))
         (cl.1, ⟨0, 0, 0, cl.2.2⟩)
       (pr.1, Except.ok (newYear, pr.2))) := by
  unfold closeYearGo
  dsimp only
  rw [cloneClasses_studentEnrollments]
  rfl

/-- Master decomposition of a successful close run: the reported new year,
the clone correspondence, the per-class subject/assignment blocks, the shape
of the final enrollment list, the mapping, and the statistics accounting. -/
theorem closeYearGo_master (s : DB) (yr : AcademicYear) (yearId : Id)
    (u : Option Id) (now : JSDate) (cy : Nat) (hwf : s.WF) :
    ∃ cloned subBlocks taBlocks mp stats,
      (closeYearGo s yr yearId u now cy).2 = Except.ok
        (⟨s.nextId, yr.establishmentId, getNextAcademicYearName cy yr.name,
          computeNewStartDate yr.endDate,
          computeNewEndDate (computeNewStartDate yr.endDate),
          AcademicYearStatus.active, none, none, now⟩, stats) ∧
      List.Forall₂ (isCloneOf s.nextId)
        (s.classes.filter (fun c => c.academicYearId == yearId)) cloned ∧
      (cloned.map ClassRec.id).Pairwise (fun a b => a < b) ∧
      (∀ c ∈ cloned, s.nextId + 1 ≤ c.id) ∧
      (closeYearGo s yr yearId u now cy).1.classes.map ClassRec.core =
        (s.classes ++ cloned).map ClassRec.core ∧
      (closeYearGo s yr yearId u now cy).1.classSubjects =
        s.classSubjects ++ subBlocks.flatten ∧
      List.Forall₂ (fun (p : ClassRec × ClassRec) block =>
        List.Forall₂ (isSubjectCloneOf p.2.id s.nextId)
          (s.classSubjects.filter (fun x => x.classId == p.1.id)) block ∧
        ∀ x ∈ block, x.classId = p.2.id ∧ x.academicYearId = s.nextId)
        ((s.classes.filter (fun c => c.academicYearId == yearId)).zip cloned)
        subBlocks ∧
      (closeYearGo s yr yearId u now cy).1.teacherAssignments =
        s.teacherAssignments ++ taBlocks.flatten ∧
      List.Forall₂ (fun (p : ClassRec × ClassRec) block =>
        List.Forall₂ (isAssignmentCloneOf p.2.id s.nextId)
          (s.teacherAssignments.filter (fun x => x.classId == p.1.id)) block ∧
        ∀ x ∈ block, x.classId = p.2.id ∧ x.academicYearId = s.nextId)
        ((s.classes.filter (fun c => c.academicYearId == yearId)).zip cloned)
        taBlocks ∧
      (∀ x ∈ (closeYearGo s yr yearId u now cy).1.studentEnrollments,
        (∃ x0 ∈ s.studentEnrollments,
          x.academicYearId = x0.academicYearId ∧ x.studentId = x0.studentId ∧
          x.classId = x0.classId ∧ x.decision = x0.decision) ∨
        (x.academicYearId = s.nextId ∧
          tracesToSource (s.classes.filter (fun c => c.academicYearId == yearId))
            (s.classes ++ cloned) s.nextId
            (s.studentEnrollments.filter (fun e => e.academicYearId == yearId))
            x)) ∧
      mp.map Prod.fst =
        (s.classes.filter (fun c => c.academicYearId == yearId)).map
          ClassRec.id ∧
      stats.classesCreated =
        (s.classes.filter (fun c => c.academicYearId == yearId)).length ∧
      stats.sum3 =
        (s.studentEnrollments.filter
          (fun e => e.academicYearId == yearId)).countP
          (fun e => !(closeSkipped
            (s.classes.filter (fun c => c.academicYearId == yearId)) mp
            ((s.classes ++ cloned).filter
              (fun c => c.academicYearId == s.nextId)) e)) := by
  obtain ⟨hwf1, hwf2, hwf3, hwf4, hwf5, hwf6, hwf7⟩ := hwf
  rw [closeYearGo_eq]
  dsimp only
  simp only [cloneClasses]
  obtain ⟨cloned, subBlocks, taBlocks, c1, c2, c3, c4, c5, c6, c7, c8, c9,
      c10, c11, c12, c13⟩ :=
    cloneClasses_fold_spec s.nextId s.nextId
      (s.classes.filter (fun c => c.academicYearId == yearId))
      (markClosedAddYear { s with nextId := s.nextId + 1 } yearId
        ⟨s.nextId, yr.establishmentId, getNextAcademicYearName cy yr.name,
          computeNewStartDate yr.endDate,
          computeNewEndDate (computeNewStartDate yr.endDate),
          AcademicYearStatus.active, none, none, now⟩ u now, [], 0)
      (Nat.le_succ s.nextId)
      (fun oc hoc => (hwf2 oc (List.mem_filter.mp hoc).1).1)
  obtain ⟨mtail, m1, m2⟩ :=
    cloneClasses_mapping s.nextId
      (s.classes.filter (fun c => c.academicYearId == yearId))
      (markClosedAddYear { s with nextId := s.nextId + 1 } yearId
        ⟨s.nextId, yr.establishmentId, getNextAcademicYearName cy yr.name,
          computeNewStartDate yr.endDate,
          computeNewEndDate (computeNewStartDate yr.endDate),
          AcademicYearStatus.active, none, none, now⟩ u now, [], 0)
  obtain ⟨g1, g2, g3, g4, g5, g6, g7⟩ :=
    processFold_spec
      (s.classes.filter (fun c => c.academicYearId == yearId))
      ((List.foldl (cloneClassStep s.nextId)
        (markClosedAddYear { s with nextId := s.nextId + 1 } yearId
          ⟨s.nextId, yr.establishmentId, getNextAcademicYearName cy yr.name,
            computeNewStartDate yr.endDate,
            computeNewEndDate (computeNewStartDate yr.endDate),
            AcademicYearStatus.active, none, none, now⟩ u now, [], 0)
        (s.classes.filter (fun c => c.academicYearId == yearId)))).2.1
      s.nextId (computeNewStartDate yr.endDate)
      (s.classes ++ cloned)
      (s.studentEnrollments.filter (fun e => e.academicYearId == yearId))
      (s.studentEnrollments.filter (fun e => e.academicYearId == yearId))
      ((List.foldl (cloneClassStep s.nextId)
        (markClosedAddYear { s with nextId := s.nextId + 1 } yearId
          ⟨s.nextId, yr.establishmentId, getNextAcademicYearName cy yr.name,
            computeNewStartDate yr.endDate,
            computeNewEndDate (computeNewStartDate yr.endDate),
            AcademicYearStatus.active, none, none, now⟩ u now, [], 0)
        (s.classes.filter (fun c => c.academicYearId == yearId))).1,
        ⟨0, 0, 0, (List.foldl (cloneClassStep s.nextId)
          (markClosedAddYear { s with nextId := s.nextId + 1 } yearId
            ⟨s.nextId, yr.establishmentId, getNextAcademicYearName cy yr.name,
              computeNewStartDate yr.endDate,
              computeNewEndDate (computeNewStartDate yr.endDate),
              AcademicYearStatus.active, none, none, now⟩ u now, [], 0)
          (s.classes.filter (fun c => c.academicYearId == yearId))).2.2⟩)
      (fun x hx => hx)
      (by rw [c1]; rfl)
  refine ⟨cloned, subBlocks, taBlocks,
    (List.foldl (cloneClassStep s.nextId)
      (markClosedAddYear { s with nextId := s.nextId + 1 } yearId
        ⟨s.nextId, yr.establishmentId, getNextAcademicYearName cy yr.name,
          computeNewStartDate yr.endDate,
          computeNewEndDate (computeNewStartDate yr.endDate),
          AcademicYearStatus.active, none, none, now⟩ u now, [], 0)
      (s.classes.filter (fun c => c.academicYearId == yearId))).2.1,
    (List.foldl (processEnrollment (s.classes.filter (fun c => c.academicYearId == yearId))
      (List.foldl (cloneClassStep s.nextId)
      (markClosedAddYear { s with nextId := s.nextId + 1 } yearId
        ⟨s.nextId, yr.establishmentId, getNextAcademicYearName cy yr.name,
          computeNewStartDate yr.endDate,
          computeNewEndDate (computeNewStartDate yr.endDate),
          AcademicYearStatus.active, none, none, now⟩ u now, [], 0)
      (s.classes.filter (fun c => c.academicYearId == yearId))).2.1
      s.nextId (computeNewStartDate yr.endDate))
      ((List.foldl (cloneClassStep s.nextId)
      (markClosedAddYear { s with nextId := s.nextId + 1 } yearId
        ⟨s.nextId, yr.establishmentId, getNextAcademicYearName cy yr.name,
          computeNewStartDate yr.endDate,
          computeNewEndDate (computeNewStartDate yr.endDate),
          AcademicYearStatus.active, none, none, now⟩ u now, [], 0)
      (s.classes.filter (fun c => c.academicYearId == yearId))).1, ⟨0, 0, 0, (List.foldl (cloneClassStep s.nextId)
      (markClosedAddYear { s with nextId := s.nextId + 1 } yearId
        ⟨s.nextId, yr.establishmentId, getNextAcademicYearName cy yr.name,
          computeNewStartDate yr.endDate,
          computeNewEndDate (computeNewStartDate yr.endDate),
          AcademicYearStatus.active, none, none, now⟩ u now, [], 0)
      (s.classes.filter (fun c => c.academicYearId == yearId))).2.2⟩)
      (s.studentEnrollments.filter (fun e => e.academicYearId == yearId))).2, rfl, c2, c3,
    (fun c hc => (c4 c hc).1), g4, ?_, c6, ?_, c8, ?_, ?_, ?_, ?_⟩
  · rw [g2, c5]
    rfl
  · rw [g3, c7]
    rfl
  · intro x hx
    rcases g7 x hx with ⟨x0, hx0, hf⟩ | h2
    · dsimp only at hx0
      rw [c11] at hx0
      have hx0m : x0 ∈ s.studentEnrollments := hx0
      exact Or.inl ⟨x0, hx0m, hf⟩
    · exact Or.inr h2
  · rw [m1, List.nil_append, m2]
  · rw [g5, c13]
    simp
  · rw [g6]
    simp [CloseYearStats.sum3]

theorem isCloneOf_year {ny : Id} {oc c : ClassRec} (h : isCloneOf ny oc c) :
    c.academicYearId = ny := by
  have := congrArg ClassRec.academicYearId h
  exact this

theorem isCloneOf_level {ny : Id} {oc c : ClassRec} (h : isCloneOf ny oc c) :
    c.levelId = oc.levelId := by
  have := congrArg ClassRec.levelId h
  exact this

theorem two_le_length_of_mem_ne {α : Type _} {a b : α} :
    ∀ {l : List α}, a ∈ l → b ∈ l → a ≠ b → 2 ≤ l.length := by
  intro l
  induction l with
  | nil => intro ha; cases ha
  | cons x xs ih =>
    intro ha hb hne
    rw [List.length_cons]
    rcases List.mem_cons.mp ha with h1 | h1
    · rcases List.mem_cons.mp hb with h2 | h2
      · exact absurd (h1.trans h2.symm) hne
      · have : 1 ≤ xs.length := List.length_pos_of_mem h2
        omega
    · have : 1 ≤ xs.length := List.length_pos_of_mem h1
      omega

theorem forall₂_any_congr {α β : Type _} (R : α → β → Prop) (p : α → Bool)
    (q : β → Bool) :
    ∀ {l₁ : List α} {l₂ : List β}, List.Forall₂ R l₁ l₂ →
    (∀ a b, R a b → p a = q b) → l₁.any p = l₂.any q := by
  intro l₁ l₂ h
  induction h with
  | nil => intro _; rfl
  | @cons a b la lb hab htail ih =>
    intro hcong
    rw [List.any_cons, List.any_cons, hcong a b hab, ih hcong]

theorem forall₂_flatten_mem {σ : Type _} (f : σ → Id) :
    ∀ {ids : List Id} {blocks : List (List σ)},
    List.Forall₂ (fun i block => ∀ x ∈ block, f x = i) ids blocks →
    ∀ x ∈ blocks.flatten, ∃ j ∈ ids, f x = j := by
  intro ids blocks h
  induction h with
  | nil => intro x hx; cases hx
  | @cons i b ids' blocks' hib htail ih =>
    intro x hx
    rw [List.flatten_cons, List.mem_append] at hx
    rcases hx with h1 | h1
    · exact ⟨i, by simp, hib x h1⟩
    · obtain ⟨j, hj, hfx⟩ := ih x h1
      exact ⟨j, by simp [hj], hfx⟩

/-- With pairwise-distinct block owners, filtering the flattened blocks by an
owner id recovers exactly that owner's block. -/
theorem flatten_filter_blocks {σ : Type _} (f : σ → Id) :
    ∀ (ids : List Id) (blocks : List (List σ)),
    List.Forall₂ (fun i block => ∀ x ∈ block, f x = i) ids blocks →
    ids.Pairwise (fun a b => a ≠ b) →
    List.Forall₂ (fun i block =>
      blocks.flatten.filter (fun u => f u == i) = block) ids blocks := by
  intro ids blocks h
  induction h with
  | nil => intro _; exact List.Forall₂.nil
  | @cons i b ids' blocks' hib htail ih =>
    intro hpw
    obtain ⟨hne, hpw'⟩ := List.pairwise_cons.mp hpw
    refine List.Forall₂.cons ?_ ?_
    · rw [List.flatten_cons, List.filter_append]
      have h1 : b.filter (fun u => f u == i) = b := by
        rw [List.filter_eq_self]
        intro x hx
        simp [hib x hx]
      have h2 : blocks'.flatten.filter (fun u => f u == i) = [] := by
        rw [List.filter_eq_nil_iff]
        intro x hx
        obtain ⟨j, hj, hfx⟩ := forall₂_flatten_mem f htail x hx
        simp only [beq_iff_eq, hfx]
        exact fun heq => (hne j hj) heq.symm
      rw [h1, h2, List.append_nil]
    · refine forall₂_and_mem _ _ _ _ (ih hpw') ?_
      intro j blk hj hblk hfil
      rw [List.flatten_cons, List.filter_append]
      have h0 : b.filter (fun u => f u == j) = [] := by
        rw [List.filter_eq_nil_iff]
        intro x hx
        simp only [beq_iff_eq, hib x hx]
        exact hne j hj
      rw [h0, List.nil_append, hfil]

theorem filter_year_length_of_core_eq (l l' : List ClassRec)
    (h : l.map ClassRec.core = l'.map ClassRec.core) (y : Id) :
    (l.filter (fun c => c.academicYearId == y)).length =
      (l'.filter (fun c => c.academicYearId == y)).length := by
  have := filter_length_of_core_eq l l' h (fun c => c.academicYearId == y)
  exact this

theorem filter_year_core_eq (l l' : List ClassRec)
    (h : l.map ClassRec.core = l'.map ClassRec.core) (y : Id) :
    (l.filter (fun c => c.academicYearId == y)).map ClassRec.core =
      (l'.filter (fun c => c.academicYearId == y)).map ClassRec.core := by
  have := filter_core_eq l l' h (fun c => c.academicYearId == y)
  exact this


/-- C6:  after every successful `closeYear`, `stats.classesCreated`
equals the number of `Class` records of the closing year, and exactly that
many class records exist in the new year. -/
theorem C6_classes_created (s : DB) (yearId : Id) (u : Option Id)
    (now : JSDate) (cy : Nat) (ny : AcademicYear) (stats : CloseYearStats)
    (hwf : s.WF)
    (hrun : (closeYear s yearId u now cy).2 = Except.ok (ny, stats)) :
    stats.classesCreated =
      (s.classes.filter (fun c => c.academicYearId == yearId)).length ∧
    ((closeYear s yearId u now cy).1.classes.filter
      (fun c => c.academicYearId == ny.id)).length =
      (s.classes.filter (fun c => c.academicYearId == yearId)).length := by
  obtain ⟨yr, hf, hs⟩ := closeYear_ok_found s yearId u now cy (ny, stats) hrun
  have hgo := closeYear_ok_go s yearId u now cy yr hf hs
  rw [hgo] at hrun ⊢
  obtain ⟨cloned, sb, tb, mp, stats', e_run, e_f2, e_pw, e_lb, e_core, e_sub,
    e_subF2, e_ta, e_taF2, e_enr, e_mp, e_cc, e_sum⟩ :=
    closeYearGo_master s yr yearId u now cy hwf
  rw [e_run] at hrun
  have hpair := Except.ok.inj hrun
  injection hpair with h1 h2
  have hstats : stats' = stats := h2
  have hnyid : ny.id = s.nextId := by rw [← h1]
  constructor
  · rw [← hstats]
    exact e_cc
  · have h1 := filter_year_length_of_core_eq _ _ e_core ny.id
    rw [h1, List.filter_append]
    have h2 : s.classes.filter (fun c => c.academicYearId == ny.id) = [] := by
      rw [List.filter_eq_nil_iff]
      intro c hc
      have hlt := (hwf.2.1 c hc).2
      simp only [beq_iff_eq, hnyid]
      intro heq
      rw [heq] at hlt
      exact Nat.lt_irrefl _ hlt
    have h3 : cloned.filter (fun c => c.academicYearId == ny.id) = cloned := by
      rw [List.filter_eq_self]
      intro c hc
      obtain ⟨oc, _, hcl⟩ := forall₂_mem_right (isCloneOf s.nextId) e_f2 c hc
      simp only [beq_iff_eq, hnyid]
      exact isCloneOf_year hcl
    rw [h2, h3, List.nil_append]
    exact (List.Forall₂.length_eq e_f2).symm


/-- C7: every enrollment created by the promotion branch references a
new-year class whose level is `getNextLevel` of the student's old class
level. -/
theorem C7_promotion_level (s : DB) (yearId : Id) (u : Option Id)
    (now : JSDate) (cy : Nat) (ny : AcademicYear) (stats : CloseYearStats)
    (hwf : s.WF)
    (hnd : ((s.studentEnrollments.filter
      (fun e => e.academicYearId == yearId)).map
      StudentEnrollment.studentId).Nodup)
    (hrun : (closeYear s yearId u now cy).2 = Except.ok (ny, stats)) :
    ∀ x ∈ (closeYear s yearId u now cy).1.studentEnrollments,
      x.academicYearId = ny.id →
      ∀ old ∈ s.studentEnrollments, old.academicYearId = yearId →
      old.studentId = x.studentId →
      old.decision = EnrollmentDecision.passage →
      ∃ oc ∈ s.classes, oc.academicYearId = yearId ∧ oc.id = old.classId ∧
      ∃ nl, getNextLevel oc.levelId = some nl ∧
      ∃ c ∈ (closeYear s yearId u now cy).1.classes, c.id = x.classId ∧
        c.academicYearId = ny.id ∧ c.levelId = nl.id := by
  obtain ⟨yr, hf, hs⟩ := closeYear_ok_found s yearId u now cy (ny, stats) hrun
  have hgo := closeYear_ok_go s yearId u now cy yr hf hs
  rw [hgo] at hrun ⊢
  obtain ⟨cloned, sb, tb, mp, stats', e_run, e_f2, e_pw, e_lb, e_core, e_sub,
    e_subF2, e_ta, e_taF2, e_enr, e_mp, e_cc, e_sum⟩ :=
    closeYearGo_master s yr yearId u now cy hwf
  rw [e_run] at hrun
  injection (Except.ok.inj hrun) with h1 h2
  have hnyid : ny.id = s.nextId := by rw [← h1]
  intro x hx hxy old hold holdy holdstu holddec
  rcases e_enr x hx with ⟨x0, hx0, hfe⟩ | ⟨hxny, src, hsrc, hsrcstu, himpl⟩
  · exfalso
    have h5 := (hwf.2.2.2.2.1 x0 hx0).2
    rw [← hfe.1, hxy, hnyid] at h5
    exact Nat.lt_irrefl _ h5
  · have holdE0 : old ∈ s.studentEnrollments.filter
        (fun e => e.academicYearId == yearId) :=
      List.mem_filter.mpr ⟨hold, by simp [beq_iff_eq, holdy]⟩
    have heq : src = old :=
      List.inj_on_of_nodup_map hnd hsrc holdE0 (hsrcstu.trans holdstu.symm)
    obtain ⟨oc, hocm, hocid, nl, hnl, c, hcm, hcid, hcy, hcl⟩ :=
      himpl (by rw [heq]; exact holddec)
    have hocs := List.mem_filter.mp hocm
    have hocy : oc.academicYearId = yearId := by
      have := hocs.2
      simpa [beq_iff_eq] using this
    refine ⟨oc, hocs.1, hocy, by rw [hocid, heq], nl, hnl, ?_⟩
    obtain ⟨c', hc'm, hc'core⟩ := mem_core_transfer (s.classes ++ cloned)
      (closeYearGo s yr yearId u now cy).1.classes e_core.symm c hcm
    have hhid := congrArg ClassRec.id hc'core
    have hhy := congrArg ClassRec.academicYearId hc'core
    have hhl := congrArg ClassRec.levelId hc'core
    exact ⟨c', hc'm, hhid.trans hcid, hhy.trans (hcy.trans hnyid.symm),
      hhl.trans hcl⟩


theorem find?_isNone_eq_not_any {α : Type _} (p : α → Bool) :
    ∀ (l : List α), (l.find? p).isNone = !l.any p := by
  intro l
  induction l with
  | nil => rfl
  | cons x xs ih =>
    rw [List.find?_cons, List.any_cons]
    cases hp : p x
    · simp only [hp, Bool.false_or]
      exact ih
    · rfl

/-- On the success path (total mapping, fresh new-year classes being exactly
the clones), the run-time skip condition of the enrollment loop coincides
with the input-state one. -/
theorem closeSkipped_eq_final (s : DB) (yearId ny : Id) (mp : List (Id × Id))
    (cloned : List ClassRec)
    (hmp : mp.map Prod.fst =
      (s.classes.filter (fun c => c.academicYearId == yearId)).map ClassRec.id)
    (hf2 : List.Forall₂ (isCloneOf ny)
      (s.classes.filter (fun c => c.academicYearId == yearId)) cloned)
    (hold : ∀ c ∈ s.classes, c.academicYearId ≠ ny)
    (e : StudentEnrollment) :
    closeSkipped (s.classes.filter (fun c => c.academicYearId == yearId)) mp
      ((s.classes ++ cloned).filter (fun c => c.academicYearId == ny)) e =
      closeSkippedFinal s yearId e := by
  have hnyc : (s.classes ++ cloned).filter (fun c => c.academicYearId == ny) =
      cloned := by
    rw [List.filter_append]
    have h2 : s.classes.filter (fun c => c.academicYearId == ny) = [] := by
      rw [List.filter_eq_nil_iff]
      intro c hc
      simp only [beq_iff_eq]
      exact hold c hc
    have h3 : cloned.filter (fun c => c.academicYearId == ny) = cloned := by
      rw [List.filter_eq_self]
      intro c hc
      obtain ⟨oc, _, hcl⟩ := forall₂_mem_right (isCloneOf ny) hf2 c hc
      simp only [beq_iff_eq]
      exact isCloneOf_year hcl
    rw [h2, h3, List.nil_append]
  unfold closeSkipped closeSkippedFinal
  cases hfind : (s.classes.filter (fun c => c.academicYearId == yearId)).find?
      (fun c => c.id == e.classId) with
  | none => rfl
  | some oldClass =>
    dsimp only
    by_cases hp : e.decision = EnrollmentDecision.passage
    · rw [if_pos hp, if_pos hp]
      cases hnl : getNextLevel oldClass.levelId with
      | none => rfl
      | some nl =>
        dsimp only
        rw [hnyc, find?_isNone_eq_not_any]
        have hany : (s.classes.filter (fun c => c.academicYearId == yearId)).any
            (fun c => c.levelId == nl.id) =
            cloned.any (fun c => c.levelId == nl.id) :=
          forall₂_any_congr (isCloneOf ny) _ _ hf2
            (fun a b hab => by rw [isCloneOf_level hab])
        rw [← hany]
    · rw [if_neg hp, if_neg hp]
      by_cases hr : e.decision = EnrollmentDecision.redoublement
      · rw [if_pos hr, if_pos hr]
        have hmem : oldClass ∈
            s.classes.filter (fun c => c.academicYearId == yearId) :=
          List.mem_of_find?_eq_some hfind
        have hid : oldClass.id = e.classId := by
          have h := List.find?_some hfind
          simpa [beq_iff_eq] using h
        have hin : e.classId ∈ mp.map Prod.fst := by
          rw [hmp]
          exact List.mem_map.mpr ⟨oldClass, hmem, hid⟩
        obtain ⟨pr, hpr, hpr1⟩ := List.mem_map.mp hin
        cases hI : mp.find? (fun q => q.1 == e.classId) with
        | some _ => rfl
        | none =>
          exfalso
          have hnone := List.find?_eq_none.mp hI pr hpr
          simp [hpr1] at hnone
      · rw [if_neg hr, if_neg hr]

/-- C8: after every successful `closeYear`, the three student statistics sum
to at most the closing year's enrollment count, and the remainder is exactly
the number of enrollments the loop skips: missing class record, decision
still `pending`, or a `passage` from a terminal level or with no destination
class at the successor level. -/
theorem C8_stats_amended (s : DB) (yearId : Id) (u : Option Id)
    (now : JSDate) (cy : Nat) (ny : AcademicYear) (stats : CloseYearStats)
    (hwf : s.WF)
    (hrun : (closeYear s yearId u now cy).2 = Except.ok (ny, stats)) :
    stats.sum3 ≤ totalEnrollments s yearId ∧
    stats.sum3 + (s.studentEnrollments.filter
      (fun e => e.academicYearId == yearId)).countP (closeSkippedFinal s yearId) =
      totalEnrollments s yearId := by
  obtain ⟨yr, hf, hs⟩ := closeYear_ok_found s yearId u now cy (ny, stats) hrun
  have hgo := closeYear_ok_go s yearId u now cy yr hf hs
  rw [hgo] at hrun
  obtain ⟨cloned, sb, tb, mp, stats', e_run, e_f2, e_pw, e_lb, e_core, e_sub,
    e_subF2, e_ta, e_taF2, e_enr, e_mp, e_cc, e_sum⟩ :=
    closeYearGo_master s yr yearId u now cy hwf
  rw [e_run] at hrun
  injection (Except.ok.inj hrun) with h1 h2
  have hstats : stats' = stats := h2
  rw [← hstats]
  have hold : ∀ c ∈ s.classes, c.academicYearId ≠ s.nextId := by
    intro c hc heq
    have hlt := (hwf.2.1 c hc).2
    rw [heq] at hlt
    exact Nat.lt_irrefl _ hlt
  have hbridge : ∀ e ∈ s.studentEnrollments.filter
      (fun e => e.academicYearId == yearId),
      ((!(closeSkipped (s.classes.filter (fun c => c.academicYearId == yearId))
        mp ((s.classes ++ cloned).filter (fun c => c.academicYearId == s.nextId))
        e)) = true) ↔
      ((!(closeSkippedFinal s yearId e)) = true) := by
    intro e _
    rw [closeSkipped_eq_final s yearId s.nextId mp cloned e_mp e_f2 hold e]
  have hcount : stats'.sum3 = (s.studentEnrollments.filter
      (fun e => e.academicYearId == yearId)).countP
      (fun e => !(closeSkippedFinal s yearId e)) := by
    rw [e_sum]
    exact List.countP_congr hbridge
  constructor
  · rw [hcount]
    exact List.countP_le_length _
  · rw [hcount]
    have hsplit := countP_split (closeSkippedFinal s yearId)
      (s.studentEnrollments.filter (fun e => e.academicYearId == yearId))
    unfold totalEnrollments
    omega

/-- C8 counterexample: one CP class, a single `passage` enrollment, and no
CE1 class.  The close succeeds with all three statistics zero, yet the
spec's remainder (undecided records plus terminal-level graduates) is zero
while the year had one enrollment: the silently skipped promotion without a
destination class is missing from the spec's accounting. -/
theorem C8_remainder_cex :
    (closeYear exDBC8 1 (some 90) exNow 2026).2 =
      Except.ok (⟨100, 0, "2025-2026", ⟨2025, 9, 1⟩, ⟨2026, 6, 31⟩,
        AcademicYearStatus.active, none, none, exNow⟩,
        (⟨0, 0, 0, 1⟩ : CloseYearStats)) ∧
    CloseYearStats.sum3 ⟨0, 0, 0, 1⟩ ≤ totalEnrollments exDBC8 1 ∧
    CloseYearStats.sum3 ⟨0, 0, 0, 1⟩ + claimedRemainder exDBC8 1 ≠
      totalEnrollments exDBC8 1 := by
  refine ⟨rfl, by decide, by decide⟩


theorem forall₂_conj_mem {α γ : Type _} (P Q : α → γ → Prop) :
    ∀ {l₁ : List α} {l₃ : List γ}, List.Forall₂ P l₁ l₃ → List.Forall₂ Q l₁ l₃ →
    ∀ a ∈ l₁, ∃ c, P a c ∧ Q a c := by
  intro l₁ l₃ hP
  induction hP with
  | nil => intro _ a ha; cases ha
  | @cons a c la lc hac htail ih =>
    intro hQ x hx
    cases hQ with
    | cons hq hQtail =>
      rcases List.mem_cons.mp hx with h1 | h1
      · exact ⟨c, h1 ▸ hac, h1 ▸ hq⟩
      · exact ih hQtail x h1

/-- C9: a successful `closeYear` pairs every class of the closing year with
exactly one new-year clone (empty roster, all other non-identity fields
kept), the new year's classes are exactly those clones, and each clone
carries field-for-field copies of its source's `ClassSubject` and
`TeacherAssignment` rows, re-pointed at the clone and the new year. -/
theorem C9_clone_roundtrip (s : DB) (yearId : Id) (u : Option Id)
    (now : JSDate) (cy : Nat) (ny : AcademicYear) (stats : CloseYearStats)
    (hwf : s.WF)
    (hrun : (closeYear s yearId u now cy).2 = Except.ok (ny, stats)) :
    ∃ cloned,
      List.Forall₂ (isCloneOf ny.id)
        (s.classes.filter (fun c => c.academicYearId == yearId)) cloned ∧
      (∀ c ∈ cloned, c.studentIds = []) ∧
      ((closeYear s yearId u now cy).1.classes.filter
        (fun c => c.academicYearId == ny.id)).map ClassRec.core =
        cloned.map ClassRec.core ∧
      ∀ p ∈ (s.classes.filter (fun c => c.academicYearId == yearId)).zip cloned,
        List.Forall₂ (isSubjectCloneOf p.2.id ny.id)
          (s.classSubjects.filter (fun x => x.classId == p.1.id))
          ((closeYear s yearId u now cy).1.classSubjects.filter
            (fun x => x.classId == p.2.id)) ∧
        List.Forall₂ (isAssignmentCloneOf p.2.id ny.id)
          (s.teacherAssignments.filter (fun x => x.classId == p.1.id))
          ((closeYear s yearId u now cy).1.teacherAssignments.filter
            (fun x => x.classId == p.2.id)) := by
  obtain ⟨yr, hf, hs⟩ := closeYear_ok_found s yearId u now cy (ny, stats) hrun
  have hgo := closeYear_ok_go s yearId u now cy yr hf hs
  rw [hgo] at hrun ⊢
  obtain ⟨cloned, sb, tb, mp, stats', e_run, e_f2, e_pw, e_lb, e_core, e_sub,
    e_subF2, e_ta, e_taF2, e_enr, e_mp, e_cc, e_sum⟩ :=
    closeYearGo_master s yr yearId u now cy hwf
  rw [e_run] at hrun
  injection (Except.ok.inj hrun) with h1 h2
  have hnyid : ny.id = s.nextId := by rw [← h1]
  rw [hnyid]
  have hlen : cloned.length ≤
      (s.classes.filter (fun c => c.academicYearId == yearId)).length :=
    le_of_eq (List.Forall₂.length_eq e_f2).symm
  have hzipmap : ((s.classes.filter (fun c => c.academicYearId == yearId)).zip
      cloned).map (fun p => p.2.id) = cloned.map ClassRec.id := by
    have h := List.map_snd_zip
      (s.classes.filter (fun c => c.academicYearId == yearId)) cloned hlen
    calc ((s.classes.filter (fun c => c.academicYearId == yearId)).zip
        cloned).map (fun p => p.2.id)
        = (((s.classes.filter (fun c => c.academicYearId == yearId)).zip
            cloned).map Prod.snd).map ClassRec.id := by
          rw [List.map_map]
          rfl
      _ = cloned.map ClassRec.id := by rw [h]
  have hpw' : (cloned.map ClassRec.id).Pairwise (fun a b => a ≠ b) :=
    e_pw.imp (fun h => Nat.ne_of_lt h)
  -- subject blocks: ownership, then flattened-filter recovery
  have hsubOwn : List.Forall₂ (fun (p : ClassRec × ClassRec) block =>
      ∀ x ∈ block, x.classId = p.2.id)
      ((s.classes.filter (fun c => c.academicYearId == yearId)).zip cloned)
      sb :=
    List.Forall₂.imp (fun p block hp => fun x hx => (hp.2 x hx).1) e_subF2
  have hmapS : List.Forall₂ (fun i block => ∀ x ∈ block, x.classId = i)
      (cloned.map ClassRec.id) sb := by
    rw [← hzipmap]
    exact List.forall₂_map_left_iff.mpr hsubOwn
  have hfilS := flatten_filter_blocks ClassSubject.classId
    (cloned.map ClassRec.id) sb hmapS hpw'
  rw [← hzipmap] at hfilS
  have hfilS' := List.forall₂_map_left_iff.mp hfilS
  -- assignment blocks, the same way
  have htaOwn : List.Forall₂ (fun (p : ClassRec × ClassRec) block =>
      ∀ x ∈ block, x.classId = p.2.id)
      ((s.classes.filter (fun c => c.academicYearId == yearId)).zip cloned)
      tb :=
    List.Forall₂.imp (fun p block hp => fun x hx => (hp.2 x hx).1) e_taF2
  have hmapT : List.Forall₂ (fun i block => ∀ x ∈ block, x.classId = i)
      (cloned.map ClassRec.id) tb := by
    rw [← hzipmap]
    exact List.forall₂_map_left_iff.mpr htaOwn
  have hfilT := flatten_filter_blocks TeacherAssignment.classId
    (cloned.map ClassRec.id) tb hmapT hpw'
  rw [← hzipmap] at hfilT
  have hfilT' := List.forall₂_map_left_iff.mp hfilT
  refine ⟨cloned, e_f2, ?_, ?_, ?_⟩
  · intro c hc
    obtain ⟨oc, _, hcl⟩ := forall₂_mem_right _ e_f2 c hc
    have hempty := congrArg ClassRec.studentIds hcl
    exact hempty
  · have hA := filter_year_core_eq _ _ e_core s.nextId
    rw [hA, List.filter_append]
    have hnil : s.classes.filter (fun c => c.academicYearId == s.nextId) = [] := by
      rw [List.filter_eq_nil_iff]
      intro c hc
      have hlt := (hwf.2.1 c hc).2
      simp only [beq_iff_eq]
      intro heq
      rw [heq] at hlt
      exact Nat.lt_irrefl _ hlt
    have hself : cloned.filter (fun c => c.academicYearId == s.nextId) =
        cloned := by
      rw [List.filter_eq_self]
      intro c hc
      obtain ⟨oc, _, hcl⟩ := forall₂_mem_right _ e_f2 c hc
      simp only [beq_iff_eq]
      exact isCloneOf_year hcl
    rw [hnil, hself, List.nil_append]
  · intro p hp
    obtain ⟨blockS, hPS, hFS⟩ := forall₂_conj_mem _ _ e_subF2 hfilS' p hp
    obtain ⟨blockT, hPT, hFT⟩ := forall₂_conj_mem _ _ e_taF2 hfilT' p hp
    have hp2 : p.2 ∈ cloned := (List.of_mem_zip hp).2
    have hbound : s.nextId + 1 ≤ p.2.id := e_lb p.2 hp2
    constructor
    · rw [e_sub, List.filter_append]
      have hnilS : s.classSubjects.filter (fun x => x.classId == p.2.id) =
          [] := by
        rw [List.filter_eq_nil_iff]
        intro x hx
        have hlt := (hwf.2.2.1 x hx).2
        simp only [beq_iff_eq]
        intro heq
        rw [heq] at hlt
        exact Nat.lt_irrefl _
          (lt_of_lt_of_le hlt (le_trans (Nat.le_succ _) hbound))
      rw [hnilS, List.nil_append, hFS]
      exact hPS.1
    · rw [e_ta, List.filter_append]
      have hnilT : s.teacherAssignments.filter
          (fun x => x.classId == p.2.id) = [] := by
        rw [List.filter_eq_nil_iff]
        intro x hx
        have hlt := (hwf.2.2.2.1 x hx).2
        simp only [beq_iff_eq]
        intro heq
        rw [heq] at hlt
        exact Nat.lt_irrefl _
          (lt_of_lt_of_le hlt (le_trans (Nat.le_succ _) hbound))
      rw [hnilT, List.nil_append, hFT]
      exact hPT.1


/-- C1: the one-active-year-per-establishment invariant is preserved by
`createYear` whenever the draft does not itself request `status = active`,
and by `closeYear` whenever the targeted year is `active` (the spec's own
precondition).  The unconditional claim is refuted separately. -/
theorem C1_one_active_amended (s : DB) (hone : OneActivePerEstablishment s) :
    (∀ est d now0, d.status ≠ some AcademicYearStatus.active →
      OneActivePerEstablishment (createYear s est d now0).1) ∧
    (∀ yearId u now0 cy yr,
      s.academicYears.find? (fun y => y.id == yearId) = some yr →
      yr.status = AcademicYearStatus.active →
      OneActivePerEstablishment (closeYear s yearId u now0 cy).1) := by
  constructor
  · intro est d now0 hd
    have hyears : (createYear s est d now0).1.academicYears =
        s.academicYears ++ [⟨s.nextId, est, d.name.getD "",
          d.startDate.getD now0, d.endDate.getD now0,
          d.status.getD AcademicYearStatus.upcoming, none, none, now0⟩] := rfl
    have hnact : d.status.getD AcademicYearStatus.upcoming ≠
        AcademicYearStatus.active := by
      cases hds : d.status with
      | none => intro h; cases h
      | some v =>
        intro h
        apply hd
        rw [hds]
        rw [show v = AcademicYearStatus.active from h]
    intro est' hmem
    unfold activeYearsFor
    rw [hyears, List.filter_append]
    have hone' : ([⟨s.nextId, est, d.name.getD "", d.startDate.getD now0,
        d.endDate.getD now0, d.status.getD AcademicYearStatus.upcoming,
        none, none, now0⟩] : List AcademicYear).filter
        (fun y => y.establishmentId == est' &&
          y.status == AcademicYearStatus.active) = [] := by
      simp [hnact]
    rw [hone', List.append_nil]
    by_cases hm : est' ∈ s.academicYears.map AcademicYear.establishmentId
    · exact hone est' hm
    · have hnil : s.academicYears.filter
          (fun y => y.establishmentId == est' &&
            y.status == AcademicYearStatus.active) = [] := by
        rw [List.filter_eq_nil_iff]
        intro y hy hp
        apply hm
        simp only [Bool.and_eq_true, beq_iff_eq] at hp
        exact List.mem_map.mpr ⟨y, hy, hp.1⟩
      rw [hnil]
      exact Nat.zero_le 1
  · intro yearId u now0 cy yr hf hact
    have hs : yr.status ≠ AcademicYearStatus.closed := by
      rw [hact]
      intro h
      cases h
    rw [closeYear_ok_go s yearId u now0 cy yr hf hs]
    have hyears := closeYearGo_academicYears s yr yearId u now0 cy
    have hyrmem : yr ∈ s.academicYears := List.mem_of_find?_eq_some hf
    have hyrid : yr.id = yearId := by
      have h := List.find?_some hf
      simpa [beq_iff_eq] using h
    have hfest : ∀ y : AcademicYear,
        (if y.id == yearId then
          { y with
            status := AcademicYearStatus.closed
            closedAt := some now0
            closedBy := u }
         else y).establishmentId = y.establishmentId := by
      intro y
      by_cases h : y.id == yearId
      · rw [if_pos h]
      · rw [if_neg h]
    intro est' hmem
    unfold activeYearsFor
    rw [hyears, List.filter_append, List.length_append]
    rw [hyears, List.map_append, List.mem_append, List.map_map] at hmem
    by_cases hest : est' = yr.establishmentId
    · have hsingle : ([⟨s.nextId, yr.establishmentId,
          getNextAcademicYearName cy yr.name, computeNewStartDate yr.endDate,
          computeNewEndDate (computeNewStartDate yr.endDate),
          AcademicYearStatus.active, none, none, now0⟩] :
          List AcademicYear).filter (fun y => y.establishmentId == est' &&
            y.status == AcademicYearStatus.active) =
          [⟨s.nextId, yr.establishmentId, getNextAcademicYearName cy yr.name,
            computeNewStartDate yr.endDate,
            computeNewEndDate (computeNewStartDate yr.endDate),
            AcademicYearStatus.active, none, none, now0⟩] := by
        simp [hest]
      have hestm : est' ∈ s.academicYears.map AcademicYear.establishmentId :=
        List.mem_map.mpr ⟨yr, hyrmem, hest.symm⟩
      have hyr_in : yr ∈ activeYearsFor s est' := by
        unfold activeYearsFor
        refine List.mem_filter.mpr ⟨hyrmem, ?_⟩
        simp [hest, hact]
      have hmapnil : (s.academicYears.map (fun y =>
          if y.id == yearId then
            { y with
              status := AcademicYearStatus.closed
              closedAt := some now0
              closedBy := u }
          else y)).filter
          (fun y => y.establishmentId == est' &&
            y.status == AcademicYearStatus.active) = [] := by
        rw [List.filter_eq_nil_iff]
        intro z hz hp
        obtain ⟨y, hy, hyz⟩ := List.mem_map.mp hz
        by_cases hid : y.id == yearId
        · rw [if_pos hid] at hyz
          rw [← hyz] at hp
          simp at hp
        · rw [if_neg hid] at hyz
          rw [← hyz] at hp
          simp only [Bool.and_eq_true, beq_iff_eq] at hp
          have hy_in : y ∈ activeYearsFor s est' := by
            unfold activeYearsFor
            refine List.mem_filter.mpr ⟨hy, ?_⟩
            simp [hp.1, hp.2]
          have hyne : y ≠ yr := by
            intro h
            apply hid
            rw [h, hyrid]
            exact beq_self_eq_true yearId
          have h2 := two_le_length_of_mem_ne hy_in hyr_in hyne
          have h1 := hone est' hestm
          omega
      rw [hsingle, hmapnil]
      exact le_refl 1
    · have hnone : ([⟨s.nextId, yr.establishmentId,
          getNextAcademicYearName cy yr.name, computeNewStartDate yr.endDate,
          computeNewEndDate (computeNewStartDate yr.endDate),
          AcademicYearStatus.active, none, none, now0⟩] :
          List AcademicYear).filter (fun y => y.establishmentId == est' &&
            y.status == AcademicYearStatus.active) = [] := by
        simp
        intro h
        exact absurd h.symm hest
      rw [hnone]
      have hestm2 : est' ∈ s.academicYears.map AcademicYear.establishmentId := by
        rcases hmem with h | h
        · obtain ⟨y, hy, hye⟩ := List.mem_map.mp h
          have := hfest y
          exact List.mem_map.mpr ⟨y, hy, by rw [← this]; exact hye⟩
        · exfalso
          apply hest
          simp at h
          exact h
      have hmono : ((s.academicYears.map (fun y =>
          if y.id == yearId then
            { y with
              status := AcademicYearStatus.closed
              closedAt := some now0
              closedBy := u }
          else y)).filter
          (fun y => y.establishmentId == est' &&
            y.status == AcademicYearStatus.active)).length ≤
          (activeYearsFor s est').length := by
        unfold activeYearsFor
        rw [← List.countP_eq_length_filter, ← List.countP_eq_length_filter,
          List.countP_map]
        refine List.countP_mono_left ?_
        intro y hy hp
        simp only [Function.comp] at hp
        by_cases hid : y.id == yearId
        · rw [if_pos hid] at hp
          simp at hp
        · rw [if_neg hid] at hp
          exact hp
      have h1 := hone est' hestm2
      simp only [List.length_nil]
      omega
  

/-- The success path always returns an `Except.ok` result. -/
theorem closeYearGo_ok (s : DB) (yr : AcademicYear) (yearId : Id) (u : Option Id)
    (now : JSDate) (cy : Nat) :
    ∃ r, (closeYearGo s yr yearId u now cy).2 = Except.ok r :=
  ⟨_, rfl⟩

/-- C10: in the static `SCHOOL_LEVELS` table every non-null `nextLevelId`
names an existing level of strictly greater order, only `tle` is terminal,
and iterating `getNextLevel` from any level reaches `none` within at most 11
steps (after 12 steps the chain is always exhausted): the promotion chain is
well-founded and cycle-free. -/
theorem C10_hierarchy_wellfounded :
    (∀ l ∈ SCHOOL_LEVELS, ∀ l2 ∈ SCHOOL_LEVELS,
      l.nextLevelId = some l2.id → l.order < l2.order) ∧
    (∀ l ∈ SCHOOL_LEVELS, l.nextLevelId = none ∨
      ∃ l2 ∈ SCHOOL_LEVELS, l.nextLevelId = some l2.id) ∧
    (∀ l ∈ SCHOOL_LEVELS, l.nextLevelId = none → l.id = "tle") ∧
    (∀ l ∈ SCHOOL_LEVELS, nextLevelStep^[11] (some l.id) = none ∨
      nextLevelStep^[11] (some l.id) = some "tle") ∧
    (∀ l ∈ SCHOOL_LEVELS, nextLevelStep^[12] (some l.id) = none) := by decide

/-- C5: the successor name is correct, but the new start date is October 1
whenever the closing year ends on a day-31 date (the seed data's July 31
convention): `setMonth(8)` overflows the 30-day September before
`setDate(1)` runs, contradicting the code's own September intent — while a
day-30 end date yields September 1. -/
theorem C5_start_date_divergence :
    getNextAcademicYearName 2026 "2024-2025" = "2025-2026" ∧
    computeNewStartDate ⟨2025, 6, 31⟩ = ⟨2025, 9, 1⟩ ∧
    computeNewStartDate ⟨2025, 6, 30⟩ = ⟨2025, 8, 1⟩ := by decide

/-- C2: `closeYear` fails with the already-closed error exactly when the
target year's status is `closed`, and succeeds exactly when the year exists
with any non-`closed` status — so an `upcoming` year is closable, contrary
to the spec's "status must be active" precondition. -/
theorem C2_close_guard_amended (s : DB) (yearId : Id) (u : Option Id)
    (now : JSDate) (cy : Nat) :
    ((closeYear s yearId u now cy).2 = .error .alreadyClosed ↔
      ∃ yr, s.academicYears.find? (fun y => y.id == yearId) = some yr ∧
        yr.status = .closed) ∧
    ((∃ r, (closeYear s yearId u now cy).2 = .ok r) ↔
      ∃ yr, s.academicYears.find? (fun y => y.id == yearId) = some yr ∧
        yr.status ≠ .closed) := by
  unfold closeYear
  cases hf : s.academicYears.find? (fun y => y.id == yearId) with
  | none => simp
  | some yr =>
    by_cases hs : yr.status = .closed
    · simp [hs]
    · obtain ⟨r, hr⟩ := closeYearGo_ok s yr yearId u now cy
      simp [hs, hr]

/-- C2 counterexample: closing a year whose status is `upcoming` (not
active) succeeds instead of failing with the already-closed error. -/
theorem C2_upcoming_close_cex :
    (closeYear exDBUpcoming 1 (some 90) exNow 2026).2.isOk = true := by decide

/-- C3: closing an already-closed year throws the already-closed error
before any write: the returned state is the input state, unchanged. -/
theorem C3_zero_writes (s : DB) (yearId : Id) (u : Option Id) (now : JSDate)
    (cy : Nat) (yr : AcademicYear)
    (hf : s.academicYears.find? (fun y => y.id == yearId) = some yr)
    (hc : yr.status = .closed) :
    closeYear s yearId u now cy = (s, .error .alreadyClosed) := by
  unfold closeYear
  rw [hf]
  simp [hc]

/-- C3 witness: the concrete closed tenant is returned untouched. -/
theorem C3_zero_writes_witness :
    closeYear exDBClosed 1 (some 90) exNow 2026 =
      (exDBClosed, .error .alreadyClosed) :=
  C3_zero_writes exDBClosed 1 (some 90) exNow 2026
    ⟨1, 0, "2024-2025", ⟨2024, 8, 1⟩, ⟨2025, 6, 31⟩, .closed,
      some ⟨2025, 6, 31⟩, some 90, ⟨2024, 8, 1⟩⟩ rfl rfl

/-- C4: `closeYear` performs no authorization check at all — the outcome is
the same for every caller, including no logged-in user. -/
theorem C4_caller_independent_amended (s : DB) (yearId : Id) (u1 u2 : Option Id)
    (now : JSDate) (cy : Nat) :
    (closeYear s yearId u1 now cy).2.isOk =
      (closeYear s yearId u2 now cy).2.isOk := by
  unfold closeYear
  cases hf : s.academicYears.find? (fun y => y.id == yearId) with
  | none => rfl
  | some yr =>
    dsimp only
    by_cases hs : yr.status = .closed
    · rw [if_pos hs, if_pos hs]
    · rw [if_neg hs, if_neg hs]; rfl

/-- C4 counterexample: a close with no logged-in user succeeds. -/
theorem C4_unauthenticated_close_cex :
    (closeYear exDBA 1 none exNow 2026).2.isOk = true := by decide

/-- C1 counterexample: `createYear` with a draft requesting `status =
active` breaks the one-active-year invariant — no conflict check exists. -/
theorem C1_active_draft_cex :
    OneActivePerEstablishment exDBActiveSmall ∧
    ¬ OneActivePerEstablishment
      (createYear exDBActiveSmall 0 exDraftActive exNow).1 := by decide

/-- C1 witness: the guarded operations preserve the invariant on the
concrete tenants. -/
theorem C1_one_active_witness :
    OneActivePerEstablishment (createYear exDBActiveSmall 0
      ⟨some "2025-2026", some ⟨2025, 8, 1⟩, some ⟨2026, 6, 30⟩,
        some AcademicYearStatus.upcoming⟩ exNow).1 ∧
    OneActivePerEstablishment (closeYear exDBA 1 (some 90) exNow 2026).1 :=
  ⟨(C1_one_active_amended exDBActiveSmall (by decide)).1 0
      ⟨some "2025-2026", some ⟨2025, 8, 1⟩, some ⟨2026, 6, 30⟩,
        some AcademicYearStatus.upcoming⟩ exNow (by decide),
    (C1_one_active_amended exDBA (by decide)).2 1 (some 90) exNow 2026 exYearA
      rfl rfl⟩

/-- C6 witness: the concrete tenant's two classes yield two clones. -/
theorem C6_classes_created_witness :
    (⟨1, 1, 0, 2⟩ : CloseYearStats).classesCreated =
      (exDBA.classes.filter (fun c => c.academicYearId == 1)).length ∧
    ((closeYear exDBA 1 (some 90) exNow 2026).1.classes.filter
      (fun c => c.academicYearId == (100 : Id))).length =
      (exDBA.classes.filter (fun c => c.academicYearId == 1)).length :=
  C6_classes_created exDBA 1 (some 90) exNow 2026
    ⟨100, 0, "2025-2026", ⟨2025, 9, 1⟩, ⟨2026, 6, 31⟩,
      AcademicYearStatus.active, none, none, exNow⟩
    ⟨1, 1, 0, 2⟩ (by decide) rfl

/-- C7 witness: the concrete promoted student's new enrollment lands in the
CE1 clone, the hierarchy successor of the CP class. -/
theorem C7_promotion_level_witness :
    ∃ oc ∈ exDBA.classes, oc.academicYearId = 1 ∧ oc.id = exEnrP.classId ∧
    ∃ nl, getNextLevel oc.levelId = some nl ∧
    ∃ c ∈ (closeYear exDBA 1 (some 90) exNow 2026).1.classes,
      c.id = (⟨105, 30, 104, 100, ⟨2025, 9, 1⟩, EnrollmentDecision.pending,
        none, none, none, none, none⟩ : StudentEnrollment).classId ∧
      c.academicYearId = (100 : Id) ∧ c.levelId = nl.id :=
  C7_promotion_level exDBA 1 (some 90) exNow 2026
    ⟨100, 0, "2025-2026", ⟨2025, 9, 1⟩, ⟨2026, 6, 31⟩,
      AcademicYearStatus.active, none, none, exNow⟩
    ⟨1, 1, 0, 2⟩ (by decide) (by decide) rfl
    ⟨105, 30, 104, 100, ⟨2025, 9, 1⟩, EnrollmentDecision.pending,
      none, none, none, none, none⟩ (by decide) rfl
    exEnrP (by decide) rfl rfl rfl

/-- C8 witness: on the concrete tenant nothing is skipped and the three
statistics account for both enrollments. -/
theorem C8_stats_witness :
    CloseYearStats.sum3 ⟨1, 1, 0, 2⟩ ≤ totalEnrollments exDBA 1 ∧
    CloseYearStats.sum3 ⟨1, 1, 0, 2⟩ +
      (exDBA.studentEnrollments.filter
        (fun e => e.academicYearId == 1)).countP (closeSkippedFinal exDBA 1) =
      totalEnrollments exDBA 1 :=
  C8_stats_amended exDBA 1 (some 90) exNow 2026
    ⟨100, 0, "2025-2026", ⟨2025, 9, 1⟩, ⟨2026, 6, 31⟩,
      AcademicYearStatus.active, none, none, exNow⟩
    ⟨1, 1, 0, 2⟩ (by decide) rfl

/-- C9 witness: the concrete close run carries the full clone
correspondence. -/
theorem C9_clone_witness :
    ∃ cloned,
      List.Forall₂ (isCloneOf 100)
        (exDBA.classes.filter (fun c => c.academicYearId == 1)) cloned ∧
      (∀ c ∈ cloned, c.studentIds = []) ∧
      ((closeYear exDBA 1 (some 90) exNow 2026).1.classes.filter
        (fun c => c.academicYearId == (100 : Id))).map ClassRec.core =
        cloned.map ClassRec.core ∧
      ∀ p ∈ (exDBA.classes.filter (fun c => c.academicYearId == 1)).zip cloned,
        List.Forall₂ (isSubjectCloneOf p.2.id 100)
          (exDBA.classSubjects.filter (fun x => x.classId == p.1.id))
          ((closeYear exDBA 1 (some 90) exNow 2026).1.classSubjects.filter
            (fun x => x.classId == p.2.id)) ∧
        List.Forall₂ (isAssignmentCloneOf p.2.id 100)
          (exDBA.teacherAssignments.filter (fun x => x.classId == p.1.id))
          ((closeYear exDBA 1 (some 90) exNow 2026).1.teacherAssignments.filter
            (fun x => x.classId == p.2.id)) :=
  C9_clone_roundtrip exDBA 1 (some 90) exNow 2026
    ⟨100, 0, "2025-2026", ⟨2025, 9, 1⟩, ⟨2026, 6, 31⟩,
      AcademicYearStatus.active, none, none, exNow⟩
    ⟨1, 1, 0, 2⟩ (by decide) rfl

end Compass
